import Mathlib

/-!
# Verification of the resctl control-plane runner, report pipeline and QoS sweep driver

Shallow embedding, in Lean 4, of the parts of the repository that the
claims under scrutiny talk about:

* `rd-agent/src/report.rs` — `read_swap_free`, `UsageTracker::update`,
  `ReportFile::tick`;
* `rd-agent/src/cmd.rs` — `RunnerData::apply_cmd`;
* `resctl-bench/src/bench/iocost_qos.rs` — `IoCostQoSJob::parse`,
  `IoCostQoSJob::prev_matches`, `IoCostQoSJob::run_one` and the
  validation step of `IoCostQoSJob::run`;
* `resctl-demo/src/report_ring.rs` — `ReportData::fill`.

Rust `f64` arithmetic is modelled with `ℚ` (exact rational arithmetic);
machine integers (`u64`, `u32`) are modelled with `ℕ`, with explicit
saturation or explicit failure where the source saturates or can
overflow.  Fallible code returns `Except String` or `Option`.  Types
that come from interface crates whose sources are not available
(`rd-agent-intf`, `resctl-bench-intf/src/iocost.rs`) are modelled from
the spec and carry a doc comment saying so.
-/

namespace Resctl

/-! ## `read_swap_free` (rd-agent/src/report.rs)

The real function walks the directory hierarchy from the leaf cgroup up
to (but excluding) `/sys/fs/cgroup`, reading `memory.swap.max` and
`memory.swap.current` in each directory.  We model the chain of visited
directories as a list, leaf first, and the contents of the two files in
each directory.  File contents are modelled structurally (absent /
literal `max` / a number): the claims do not concern malformed file
contents. -/

/-- Contents of a `memory.swap.max` cgroup file: the file may be absent
(read error, treated as the literal `max`), contain the literal `max`,
or contain a number. -/
inductive SwapMaxFile where
  | absent : SwapMaxFile
  | litMax : SwapMaxFile
  | val : ℕ → SwapMaxFile
deriving DecidableEq, Repr

/-- One directory on the walk from the leaf cgroup up to (excluding) the
cgroup root: its `memory.swap.max` and `memory.swap.current` files (the
latter `none` when absent, which the source treats as `0`). -/
structure CgroupDir where
  swapMax : SwapMaxFile
  swapCurrent : Option ℕ
deriving DecidableEq, Repr

/-- `std::u64::MAX`, the value the source substitutes for the literal
`max`. -/
def U64MAX : ℕ := 2 ^ 64 - 1

/-- The `memory.swap.max` value used by `read_swap_free`: an absent file
falls back to the string `"max"`, which parses to `u64::MAX`. -/
def swapMaxValue : SwapMaxFile → ℕ
  | .absent => U64MAX
  | .litMax => U64MAX
  | .val n => n

/-- The `memory.swap.current` value used by `read_swap_free`: an absent
file falls back to `"0"`. -/
def swapCurrentValue : Option ℕ → ℕ
  | none => 0
  | some n => n

/-- One step of the walk in `read_swap_free`:
`free = free.min(max.saturating_sub(cur))`. -/
def swapFreeStep (free : ℕ) (d : CgroupDir) : ℕ :=
  min free (swapMaxValue d.swapMax - swapCurrentValue d.swapCurrent)

/-- `read_swap_free` from `rd-agent/src/report.rs`.  `isCgroupPath`
models `cgrp.starts_with("/sys/fs/cgroup/")`; `dirs` is the chain of
directories visited by the `while path != /sys/fs/cgroup` loop, from the
leaf up to but excluding the root; `meminfoSwapFree` is
`procfs::Meminfo::current()?.swap_free`.  Note `ℕ` subtraction is
truncated, which coincides with `u64::saturating_sub`. -/
def read_swap_free (isCgroupPath : Bool) (meminfoSwapFree : ℕ)
    (dirs : List CgroupDir) : Except String ℕ :=
  if !isCgroupPath then
    .error "cgroup path doesn't start with /sys/fs/cgroup"
  else
    .ok (dirs.foldl swapFreeStep meminfoSwapFree)

/-! ## `UsageTracker::update` (rd-agent/src/report.rs)

Per-unit rate computation for one pair of consecutive samples.  Only the
fields the claim talks about are live in the computation; the `Usage`
record carries exactly the counters the source reads.  The `io_util`
line performs the unguarded `u64` subtraction
`cur.io_usage - last.io_usage`; Rust integer subtraction underflow is an
arithmetic error (panic in debug builds), which we model by returning
`none`. -/

/-- Checked `u64` subtraction: `none` models the arithmetic error that
the unguarded Rust `-` raises on underflow. -/
def u64sub (a b : ℕ) : Option ℕ :=
  if b ≤ a then some (a - b) else none

/-- The cumulative counters of one usage sample (subset of `Usage` in
`rd-agent/src/report.rs` that feeds the IO-rate fields of the report). -/
structure UsageCounters where
  io_rbytes : ℕ
  io_wbytes : ℕ
  io_usage : ℕ
deriving DecidableEq, Repr

/-- The IO-rate fields of a `UsageReport` produced by
`UsageTracker::update` for one unit. -/
structure IoRates where
  io_rbps : ℕ
  io_wbps : ℕ
  io_util : ℚ
deriving DecidableEq, Repr

/-- Rust `f64::round` followed by `as u64` on a non-negative value:
round half away from zero.  On the non-negative rationals this agrees
with `⌊q + 1/2⌋`. -/
def roundToNat (q : ℚ) : ℕ := (⌊q + 1 / 2⌋).toNat

/-- The IO-rate portion of `UsageTracker::update` for one unit: given
the previous (`last`) and current (`cur`) samples and the elapsed time
`dur`.  Faithful to the source: `io_rbps`/`io_wbps` stay `0` (their
`Default`) unless the cumulative counter did not decrease; `io_util`
uses the unguarded `u64` subtraction, so the whole computation fails
(`none`) when `cur.io_usage < last.io_usage`.  When `dur ≤ 0` none of
the rate fields are touched. -/
def usageTrackerUpdate (last cur : UsageCounters) (dur : ℚ) :
    Option IoRates :=
  if dur > 0 then
    match u64sub cur.io_usage last.io_usage with
    | none => none
    | some d =>
      some
        { io_rbps :=
            if cur.io_rbytes ≥ last.io_rbytes then
              roundToNat ((cur.io_rbytes - last.io_rbytes : ℕ) / dur)
            else 0
          io_wbps :=
            if cur.io_wbytes ≥ last.io_wbytes then
              roundToNat ((cur.io_wbytes - last.io_wbytes : ℕ) / dur)
            else 0
          io_util := (d : ℚ) / 1000000 / dur }
  else
    some { io_rbps := 0, io_wbps := 0, io_util := 0 }

/-! ## The iocost QoS sweep driver (resctl-bench/src/bench/iocost_qos.rs)

The override / parameter types live in interface crates
(`resctl-bench-intf/src/iocost.rs`, `rd-agent-intf`) whose sources are
not available; they are modelled from the spec.  The planning,
`prev_matches`, `run_one` and the validation step of `run` are embedded
from `iocost_qos.rs` itself. -/

/-- Modelled from the spec: the kernel IO-cost QoS knobs
(`IoCostQoSParams` from `rd-agent-intf`): "min/max vrate, rpct, rlat,
wpct, wlat".  Only compared for equality and composed field-wise by the
code under verification. -/
structure IoCostQoSParams where
  rpct : ℚ
  rlat : ℕ
  wpct : ℚ
  wlat : ℕ
  vmin : ℚ
  vmax : ℚ
deriving DecidableEq, Repr

/-- Modelled from the spec: the IO-cost model knobs
(`IoCostModelParams` from `rd-agent-intf`).  The code under
verification only compares them for equality, so the contents are kept
opaque as a list of knob values. -/
structure IoCostModelParams where
  knobs : List ℚ
deriving DecidableEq, Repr

/-- Modelled from the spec: the QoS override
`{off, min, max, rpct, rlat, wpct, wlat, skip, min_adj}` from
`resctl-bench-intf/src/iocost.rs`; "applied on top of a base QoS.  Two
overrides equal iff every recognized field matches." -/
structure IoCostQoSOvr where
  off : Bool := false
  rpct : Option ℚ := none
  rlat : Option ℕ := none
  wpct : Option ℚ := none
  wlat : Option ℕ := none
  vmin : Option ℚ := none
  vmax : Option ℚ := none
  skip : Bool := false
  min_adj : Bool := false
deriving DecidableEq, Repr

/-- Modelled from the spec: `IoCostQoSOvr::sanitize` from
`resctl-bench-intf/src/iocost.rs` (not among the available sources).
The spec describes planning as "emitting overrides with `min=max=vrate`
and default rpct/rlat/wpct/wlat" with no further adjustment, so
sanitation is the identity. -/
def IoCostQoSOvr.sanitize (o : IoCostQoSOvr) : IoCostQoSOvr := o

/-- Modelled from the spec: composition of a base QoS with an override
(`IoCostQoSCfg::calc`, not among the available sources): "Apply composed
QoS (`base + ovr`)"; each set override field replaces the base's, and an
`off` override produces no QoS at all (`None`). -/
def IoCostQoSCfg.calc (base : IoCostQoSParams) (ovr : IoCostQoSOvr) :
    Option IoCostQoSParams :=
  if ovr.off then none
  else
    some
      { rpct := ovr.rpct.getD base.rpct
        rlat := ovr.rlat.getD base.rlat
        wpct := ovr.wpct.getD base.wpct
        wlat := ovr.wlat.getD base.wlat
        vmin := ovr.vmin.getD base.vmin
        vmax := ovr.vmax.getD base.vmax }

/-- Modelled from the spec: the memory part of a `StorageRecord`
(`mem.profile` is the only field read by `prev_matches`). -/
structure StorageRecordMem where
  profile : ℕ
deriving DecidableEq, Repr

/-- Modelled from the spec: the part of a `StorageRecord` that
`iocost_qos.rs` reads. -/
structure StorageRecord where
  mem : StorageRecordMem
deriving DecidableEq, Repr

/-- `IoCostQoSRecordRun` from `iocost_qos.rs` (the `period` and
protection record are irrelevant to the claims and omitted). -/
structure IoCostQoSRecordRun where
  ovr : IoCostQoSOvr
  qos : Option IoCostQoSParams
  stor : StorageRecord
deriving DecidableEq, Repr

/-- `IoCostQoSRecord` from `iocost_qos.rs`. -/
structure IoCostQoSRecord where
  base_model : IoCostModelParams
  base_qos : IoCostQoSParams
  mem_profile : ℕ
  runs : List (Option IoCostQoSRecordRun)
  dither_dist : Option ℚ
  inc_runs : List IoCostQoSRecordRun
deriving DecidableEq, Repr

/-- Modelled from the spec: the `iocost` portion of the agent's bench
knobs (`BenchKnobs` from `rd-agent-intf`): sequence numbers plus the
current model and QoS parameters. -/
structure BenchKnobs where
  hashd_seq : ℕ
  iocost_seq : ℕ
  iocost_model : IoCostModelParams
  iocost_qos : IoCostQoSParams
deriving DecidableEq, Repr

/-- `IoCostQoSJob::prev_matches` from `iocost_qos.rs`: the previous
record matches iff a base record run exists (`runs[0]` if present and
`Some`, otherwise the first incremental run), the stored base model and
base QoS equal the current bench knobs, and the memory profile of the
base record equals the current one. -/
def IoCostQoSJob.prev_matches (prec : IoCostQoSRecord) (mem_profile : ℕ)
    (bench : BenchKnobs) : Bool :=
  let base_rec? : Option IoCostQoSRecordRun :=
    match prec.runs with
    | some r :: _ => some r
    | _ => prec.inc_runs.head?
  match base_rec? with
  | none => false
  | some base_rec =>
    if prec.base_model ≠ bench.iocost_model ∨ prec.base_qos ≠ bench.iocost_qos then
      false
    else if mem_profile ≠ base_rec.stor.mem.profile then
      false
    else
      true

/-- `DFL_VRATE_MAX` from `iocost_qos.rs`. -/
def DFL_VRATE_MAX : ℚ := 100

/-- `DFL_VRATE_INTVS` from `iocost_qos.rs`. -/
def DFL_VRATE_INTVS : ℕ := 5

/-- `VRATE_INTVS_MIN` from `iocost_qos.rs` ("Don't go below 1% of the
specified model when applying vrate-intvs"). -/
def VRATE_INTVS_MIN : ℚ := 1

/-- The vrate-related job-spec properties consumed by
`IoCostQoSJob::parse`, after string parsing (which is out of scope):
`vrate-min` / `vrate-max` / `vrate-intvs` when present, the `dither`
property (`none` = absent, `some none` = `dither` with empty value,
`some (some d)` = an explicit dither distance), and the explicit
override propsets `spec.props[1..]`, already parsed into overrides. -/
structure QoSSpecProps where
  vrate_min : Option ℚ := none
  vrate_max : Option ℚ := none
  vrate_intvs : Option ℕ := none
  dither : Option (Option ℚ) := none
  extraOvrs : List IoCostQoSOvr := []
deriving DecidableEq, Repr

/-- Result of `IoCostQoSJob::parse` restricted to the fields the claims
concern: the planned override list `runs` and the chosen
`dither_dist`. -/
structure ParseResult where
  runs : List IoCostQoSOvr
  dither_dist : Option ℚ
deriving DecidableEq, Repr

/-- The planning walk of `IoCostQoSJob::parse`
(`while vrate > vrate_min - 0.001 { push ovr(min=max=vrate); vrate -= click }`),
with an explicit fuel bounding the number of iterations: the Rust loop
runs unboundedly, and the theorems below quantify over every
sufficiently large fuel, which pins down the value the loop computes
whenever it terminates. -/
def planWalk (click vmin : ℚ) : ℚ → ℕ → List IoCostQoSOvr
  | _, 0 => []
  | vrate, fuel + 1 =>
    if vrate > vmin - 1 / 1000 then
      IoCostQoSOvr.sanitize { vmin := some vrate, vmax := some vrate } ::
        planWalk click vmin (vrate - click) fuel
    else []

/-- The `click` / effective-min / dither-shift computation of
`IoCostQoSJob::parse`.  NOTE: at `intvs = 1` in the positive-min branch
the Rust source divides by zero in `f64`, yielding `+∞`; the rational
model yields `0` there, and every theorem about that branch carries a
step-size hypothesis (`1/1000 ≤ click`) that excludes this point. -/
def planParams (vrate_min vrate_max : ℚ) (intvs : ℕ) : ℚ × ℚ × ℚ :=
  if vrate_min = 0 then
    (vrate_max / intvs, vrate_max / intvs, -(vrate_max / intvs) / 2)
  else
    ((vrate_max - vrate_min) / ((intvs - 1 : ℕ) : ℚ), vrate_min, 0)

/-- `IoCostQoSJob::parse` from `iocost_qos.rs`, restricted to the vrate
range check, the QoS planning and the dither-distance selection (the
storage/protection sub-specs and the remaining scalar knobs do not feed
the planned overrides).  `prevRecord` is the parsed record of
`prev_data` when present, `rng` models the one sample the source draws
from `rand::thread_rng().gen_range(-click/2.0..click/2.0)`, and `fuel`
bounds the planning walk (see `planWalk`). -/
def IoCostQoSJob.parse (props : QoSSpecProps)
    (prevRecord : Option IoCostQoSRecord) (rng : ℚ) (fuel : ℕ) :
    Except String ParseResult :=
  let vrate_min := props.vrate_min.getD 0
  let vrate_max := props.vrate_max.getD DFL_VRATE_MAX
  let intvs0 := props.vrate_intvs.getD 0
  if vrate_min < 0 ∨ vrate_max < 0 ∨ vrate_min ≥ vrate_max then
    .error "invalid vrate range"
  else
    let runs0 : List IoCostQoSOvr := { off := true } :: props.extraOvrs
    let intvs := if runs0.length = 1 ∧ intvs0 = 0 then DFL_VRATE_INTVS else intvs0
    if 0 < intvs then
      let p := planParams vrate_min vrate_max intvs
      let click := p.1
      let vmin1 := p.2.1
      let dither_shift := p.2.2
      let explicit : Option ℚ := props.dither.bind id
      let reused : Option ℚ :=
        match explicit with
        | some d => some d
        | none => prevRecord.bind (·.dither_dist)
      let dd : Option ℚ :=
        if props.dither.isSome then some (reused.getD (rng + dither_shift))
        else none
      let vmin2 := vmin1 + dd.getD 0
      let vmax2 := vrate_max + dd.getD 0
      let vmin3 := max vmin2 VRATE_INTVS_MIN
      .ok { runs := runs0 ++ planWalk click vmin3 vmax2 fuel, dither_dist := dd }
    else
      .ok { runs := runs0, dither_dist := props.dither.bind id }

/-- One planned override point: `min = max = vrate`, every other field
at its default, as pushed by the planning loop (after `sanitize`, which
is the identity in this model). -/
def planOvr (v : ℚ) : IoCostQoSOvr :=
  { vmin := some v, vmax := some v }

/-- The dither distance `IoCostQoSJob::parse` ends up with when
dithering is requested without an explicit distance: the previous
record's distance when one is present — the source consults only
`prev_data.record`'s `dither_dist` field, not the bench knobs — and
otherwise the random sample plus the dither shift. -/
def chosenDitherDist (props : QoSSpecProps) (prev : Option IoCostQoSRecord)
    (rng : ℚ) (intvs : ℕ) : ℚ :=
  (prev.bind (·.dither_dist)).getD
    (rng + (planParams (props.vrate_min.getD 0)
      (props.vrate_max.getD DFL_VRATE_MAX) intvs).2.2)

/-- Concrete job-spec properties for the dither-reuse analysis:
`vrate-max=100 vrate-intvs=5 dither` (no explicit distance). -/
def cex5Props : QoSSpecProps := ⟨none, some 100, some 5, some none, []⟩

/-- A concrete base QoS used by the dither-reuse counterexample. -/
def cex5Qos : IoCostQoSParams := ⟨50, 1000, 50, 1000, 25, 100⟩

/-- A concrete previous record carrying `dither_dist = 5` whose base
model differs from the current bench knobs. -/
def cex5Prec : IoCostQoSRecord :=
  ⟨⟨[1]⟩, cex5Qos, 10, [some ⟨{ off := true }, none, ⟨⟨10⟩⟩⟩], some 5, []⟩

/-- Concrete current bench knobs whose model (`[2]`) differs from
`cex5Prec`'s base model (`[1]`). -/
def cex5Bench : BenchKnobs := ⟨1, 1, ⟨[2]⟩, cex5Qos⟩

/-- The QoS read-back of `IoCostQoSJob::run_one`: `None` when the
override is `off`, otherwise the QoS read back from the agent's bench
file (`af.bench.data.iocost.qos`), passed in as `agentQos`. -/
def run_one_qos (ovr : IoCostQoSOvr) (agentQos : IoCostQoSParams) :
    Option IoCostQoSParams :=
  if ovr.off then none else some agentQos

/-- The QoS sanity check of `IoCostQoSJob::run`: when the record run
carries a QoS, it must equal the target composed from the base QoS and
the override; any mismatch is a hard error that fails the sweep. -/
def validate_run_qos (recrQos targetQos : Option IoCostQoSParams) :
    Except String Unit :=
  if recrQos.isSome then
    if recrQos ≠ targetQos then .error "result qos != target qos" else .ok ()
  else .ok ()

/-! ## The runner state machine (rd-agent/src/cmd.rs)

`RunnerData::apply_cmd` is embedded as a pure step function on the
runner fields it reads and writes, together with an ordered trace of the
externally visible actions it performs, so that "the ack is committed
before any action is started" is a statement about the trace. -/

/-- `RunnerState` from `rd-agent-intf` (the four states are spelled out
in the spec's data model). -/
inductive RunnerState where
  | Idle : RunnerState
  | Running : RunnerState
  | BenchHashd : RunnerState
  | BenchIoCost : RunnerState
deriving DecidableEq, Repr

/-- Modelled from the spec: the command-file fields that `apply_cmd`
reads (`Cmd` from `rd-agent-intf`): `cmd_seq`, the two bench-request
sequences, the requested balloon size for the hashd bench, the balloon
ratio and the optional swappiness / zswap targets. -/
structure Cmd where
  cmd_seq : ℕ
  bench_hashd_seq : ℕ
  bench_iocost_seq : ℕ
  bench_hashd_balloon_size : ℕ
  balloon_ratio : ℚ
  swappiness : Option ℕ := none
  zswap_enabled : Option Bool := none
deriving DecidableEq, Repr

/-- The mutable runner fields that `apply_cmd` touches: the state, the
one-shot warning latches, the force-reload flag, whether the two
transient bench service handles are held, and the last committed
`cmd_ack.cmd_seq`. -/
structure RunnerModel where
  state : RunnerState
  warned_bench : Bool
  warned_init : Bool
  force_apply : Bool
  bench_hashd : Bool
  bench_iocost : Bool
  cmd_ack_seq : ℕ
deriving DecidableEq, Repr

/-- The externally visible actions `apply_cmd` performs, in order. -/
inductive CmdEvent where
  | ackCommit : ℕ → CmdEvent
  | applySwappiness : CmdEvent
  | applyZswap : CmdEvent
  | startIoCostBench : CmdEvent
  | setBalloon : ℕ → CmdEvent
  | stopOomd : CmdEvent
  | startHashdBench : CmdEvent
  | applyWorkloads : CmdEvent
  | applySysloads : CmdEvent
  | applySideloads : CmdEvent
  | warn : CmdEvent
deriving DecidableEq, Repr

/-- `RunnerData::become_idle` from `rd-agent/src/cmd.rs`: drop both
bench service handles, stop the workloads and go `Idle`. -/
def become_idle (d : RunnerModel) : RunnerModel :=
  { d with bench_hashd := false, bench_iocost := false, state := .Idle }

/-- `RunnerData::apply_cmd` from `rd-agent/src/cmd.rs`.  Inputs: the
runner fields `d`, the command file `cmd`, the bench knobs `bench`, the
`force_running` config override and the total memory (for the
`Running`-state balloon target).  Output: the new runner fields, the
`repeat` flag and the ordered trace of actions.  The ack
(`cmd_ack.cmd_seq ← cmd.cmd_seq`, committed) comes first, then the
swappiness/zswap application, then the state-dependent actions. -/
def apply_cmd (d : RunnerModel) (cmd : Cmd) (bench : BenchKnobs)
    (force_running : Bool) (total_memory : ℕ) :
    RunnerModel × Bool × List CmdEvent :=
  let d := { d with cmd_ack_seq := cmd.cmd_seq }
  let ev0 : List CmdEvent := [.ackCommit cmd.cmd_seq, .applySwappiness,
    .applyZswap]
  let step : RunnerModel × Bool × List CmdEvent :=
    match d.state with
    | .Idle =>
      if bench.iocost_seq < cmd.bench_iocost_seq then
        ({ d with
            bench_iocost := true
            state := .BenchIoCost
            force_apply := true }, false, ev0 ++ [.startIoCostBench])
      else if bench.hashd_seq < cmd.bench_hashd_seq then
        if 0 < bench.iocost_seq ∨ force_running then
          ({ d with
              bench_hashd := true
              state := .BenchHashd
              force_apply := true }, false,
            ev0 ++ [.setBalloon cmd.bench_hashd_balloon_size, .stopOomd,
              .startHashdBench])
        else if !d.warned_bench then
          ({ d with warned_bench := true }, false, ev0 ++ [.warn])
        else (d, false, ev0)
      else if 0 < bench.hashd_seq ∨ force_running then
        ({ d with state := .Running }, true, ev0)
      else if !d.warned_init then
        ({ d with warned_init := true }, false, ev0 ++ [.warn])
      else (d, false, ev0)
    | .Running =>
      if bench.hashd_seq < cmd.bench_hashd_seq ∨
          bench.iocost_seq < cmd.bench_iocost_seq then
        (become_idle d, false, ev0)
      else
        (d, false, ev0 ++ [.applyWorkloads, .applySysloads, .applySideloads,
          .setBalloon (⌊(total_memory : ℚ) * cmd.balloon_ratio⌋.toNat)])
    | .BenchHashd =>
      if cmd.bench_hashd_seq ≤ bench.hashd_seq then
        (become_idle d, false, ev0)
      else (d, false, ev0)
    | .BenchIoCost =>
      if cmd.bench_iocost_seq ≤ bench.iocost_seq then
        (become_idle d, false, ev0)
      else (d, false, ev0)
  let d' := step.1
  let d' := if d'.state ≠ .Idle then
      { d' with
          warned_bench := false
          warned_init := false }
    else d'
  (d', step.2.1, step.2.2)

/-- The sequence of runner states produced by reconciling a list of
command files in order (fixed bench knobs / config), recording the
runner fields after each `apply_cmd`. -/
def runCmds (bench : BenchKnobs) (fr : Bool) (tm : ℕ) :
    RunnerModel → List Cmd → List RunnerModel
  | _, [] => []
  | d, c :: rest =>
    let d' := (apply_cmd d c bench fr tm).1
    d' :: runCmds bench fr tm d' rest

/-! ## The report aggregator (rd-agent/src/report.rs `ReportFile::tick`)

`ReportFile::tick` is embedded as a pure step function from the
aggregator state and the current base report to the new state plus the
optionally emitted report.  The kernel readers it calls after building
the summary (`usage_tracker.update()`, the Root/Work/Sys slice stats,
`/proc/vmstat`) are external inputs, passed as parameters: `fresh` is
the usage-sampler outcome (`none` = `update()` failed, in which case no
file is written) and `freshVmstat` the `/proc/vmstat` read (`none` =
read failed, keeping the averaged map). -/

/-- Modelled from the spec: a flat stat map (`BTreeMap<String, f64>`),
modelled as a total function with value `0` for absent keys; pointwise
addition and division then agree with the source's key-merging
`acc_stat_map` / `div_stat_map`. -/
def StatMap : Type := String → ℚ

/-- Modelled from the spec: per-slice stat maps
(`BTreeMap<String, StatMap>`), same convention. -/
def SliceStatMap : Type := String → StatMap

/-- `ReportFile::acc_stat_map` (pointwise under the total-function
model). -/
def acc_stat_map (lhs rhs : StatMap) : StatMap :=
  fun k => lhs k + rhs k

/-- `ReportFile::acc_slice_stat_map`. -/
def acc_slice_stat_map (lhs rhs : SliceStatMap) : SliceStatMap :=
  fun s => acc_stat_map (lhs s) (rhs s)

/-- `ReportFile::div_stat_map`. -/
def div_stat_map (m : StatMap) (d : ℚ) : StatMap :=
  fun k => m k / d

/-- `ReportFile::div_slice_stat_map`. -/
def div_slice_stat_map (m : SliceStatMap) (d : ℚ) : SliceStatMap :=
  fun s => div_stat_map (m s) d

/-- Modelled from the spec: a reference-app (`hashd`) report — the
identity fields `svc` (service summary) and `phase`, and numeric metric
fields (`load`, `rps`, `lat` stand for the report's numeric fields). -/
structure HashdReport where
  svc : String
  phase : ℕ
  load : ℚ
  rps : ℚ
  lat : ℚ

/-- Modelled from the spec: `+=` on hashd reports — numeric fields add
(the accumulator's identity fields are irrelevant: the summary
overwrites them from the latest sample; the model keeps the latest). -/
def HashdReport.acc (a b : HashdReport) : HashdReport :=
  ⟨b.svc, b.phase, a.load + b.load, a.rps + b.rps, a.lat + b.lat⟩

/-- Modelled from the spec: `/=` on hashd reports. -/
def HashdReport.divN (a : HashdReport) (n : ℚ) : HashdReport :=
  { a with load := a.load / n, rps := a.rps / n, lat := a.lat / n }

/-- The zero hashd report (`Default`). -/
def HashdReport.zero : HashdReport := ⟨"", 0, 0, 0, 0⟩

/-- Modelled from the spec: the IO-cost snapshot of a report (`vrate`
stands for its numeric fields; `+=` and `/=` act on them). -/
structure IoCostReport where
  vrate : ℚ

/-- Modelled from the spec: the slice of a `Report` that
`ReportFile::tick` accumulates and summarises. -/
structure Report where
  hashd0 : HashdReport
  hashd1 : HashdReport
  mem_stat : SliceStatMap
  io_stat : SliceStatMap
  vmstat : StatMap
  iocost : IoCostReport

/-- Modelled from the spec: `ROOT_SLICE`. -/
def ROOT_SLICE : String := "-"

/-- Modelled from the spec: `Slice::Work.name()`. -/
def WORK_SLICE : String := "workload.slice"

/-- Modelled from the spec: `Slice::Sys.name()`. -/
def SYS_SLICE : String := "system.slice"

/-- The `ReportFile` aggregator state (`intv`, `next_at`, the
accumulators and `nr_samples`; paths and retention are file-system
concerns outside the claims). -/
structure ReportFileState where
  intv : ℕ
  next_at : ℕ
  hashd_acc0 : HashdReport
  hashd_acc1 : HashdReport
  mem_stat_acc : SliceStatMap
  io_stat_acc : SliceStatMap
  vmstat_acc : StatMap
  iocost_acc : IoCostReport
  nr_samples : ℕ

/-- Fresh per-slice usage-sampler stats injected into the emitted report
for the Root/Work/Sys slices (step 4 of the tick algorithm). -/
structure FreshSliceStats where
  mem : String → StatMap
  io : String → StatMap

/-- `BTreeMap::insert` on a slice map under the total-function model. -/
def insertSlice (m : SliceStatMap) (key : String) (v : StatMap) :
    SliceStatMap :=
  fun s => if s = key then v else m s

/-- `ReportFile::tick` from `rd-agent/src/report.rs`: accumulate the
sample; if `now < next_at` stop there (no file written); otherwise
advance `next_at`, build the summary by dividing every accumulator by
`nr_samples` (identity fields from the latest sample), reset the
accumulators and `nr_samples`, then overwrite the usage-derived parts:
on usage-sampler failure (`fresh = none`) return without writing a file;
otherwise inject the fresh Root/Work/Sys slice stats and, when the
`/proc/vmstat` read succeeds, overwrite `vmstat` with it. -/
def ReportFile.tick (s : ReportFileState) (base : Report) (now : ℕ)
    (fresh : Option FreshSliceStats) (freshVmstat : Option StatMap) :
    ReportFileState × Option Report :=
  let s := { s with
      hashd_acc0 := s.hashd_acc0.acc base.hashd0
      hashd_acc1 := s.hashd_acc1.acc base.hashd1
      mem_stat_acc := acc_slice_stat_map s.mem_stat_acc base.mem_stat
      io_stat_acc := acc_slice_stat_map s.io_stat_acc base.io_stat
      vmstat_acc := acc_stat_map s.vmstat_acc base.vmstat
      iocost_acc := ⟨s.iocost_acc.vrate + base.iocost.vrate⟩
      nr_samples := s.nr_samples + 1 }
  if now < s.next_at then (s, none)
  else
    let n : ℚ := s.nr_samples
    let rep0 : Report :=
      { hashd0 := { s.hashd_acc0.divN n with
          svc := base.hashd0.svc
          phase := base.hashd0.phase }
        hashd1 := { s.hashd_acc1.divN n with
          svc := base.hashd1.svc
          phase := base.hashd1.phase }
        mem_stat := div_slice_stat_map s.mem_stat_acc n
        io_stat := div_slice_stat_map s.io_stat_acc n
        vmstat := div_stat_map s.vmstat_acc n
        iocost := ⟨s.iocost_acc.vrate / n⟩ }
    let s' : ReportFileState :=
      { s with
          next_at := (now / s.intv + 1) * s.intv
          hashd_acc0 := HashdReport.zero
          hashd_acc1 := HashdReport.zero
          mem_stat_acc := fun _ _ => 0
          io_stat_acc := fun _ _ => 0
          vmstat_acc := fun _ => 0
          iocost_acc := ⟨0⟩
          nr_samples := 0 }
    match fresh with
    | none => (s', none)
    | some fr =>
      let rep1 : Report :=
        { rep0 with
            mem_stat := insertSlice (insertSlice (insertSlice rep0.mem_stat
              ROOT_SLICE (fr.mem ROOT_SLICE)) WORK_SLICE (fr.mem WORK_SLICE))
              SYS_SLICE (fr.mem SYS_SLICE)
            io_stat := insertSlice (insertSlice (insertSlice rep0.io_stat
              ROOT_SLICE (fr.io ROOT_SLICE)) WORK_SLICE (fr.io WORK_SLICE))
              SYS_SLICE (fr.io SYS_SLICE) }
      let rep2 : Report :=
        match freshVmstat with
        | some vm => { rep1 with vmstat := vm }
        | none => rep1
      (s', some rep2)

/-- Feeding a list of `(report, timestamp)` samples through `tick`
(during the accumulation phase the external reader inputs are unused, so
they are fixed to `none`). -/
def ReportFile.ticks (s : ReportFileState) :
    List (Report × ℕ) → ReportFileState
  | [] => s
  | (r, t) :: rest => ReportFile.ticks (ReportFile.tick s r t none none).1 rest

/-- The zeroed aggregator at a given interval and deadline (the state
right after `ReportFile::new` or after a summary). -/
def ReportFileState.fresh (intv next_at : ℕ) : ReportFileState :=
  ⟨intv, next_at, HashdReport.zero, HashdReport.zero, fun _ _ => 0,
    fun _ _ => 0, fun _ => 0, ⟨0⟩, 0⟩

/-! ## The UI report data ring (resctl-demo/src/report_ring.rs)

`ReportData::fill` is embedded generically over the report payload type
`α` and the graph data type `T`; the selector / accumulator / aggregator
closures, stored in the Rust struct at construction, are passed to
`fill` explicitly. -/

/-- The source `ReportRing` consumed by `ReportData::fill`: the loaded
records `(at, report)` in chronological order, and the ring's cadence. -/
structure ReportRing (α : Type) where
  ring : List (ℕ × α)
  cadence : ℕ

/-- `ReportDataTip` from `report_ring.rs` (`at_` is the source's `at`
field, renamed because `at` is reserved). -/
structure ReportDataTip (T : Type) where
  at_ : ℕ
  data : T
  nr_samples : ℕ

/-- `ReportData` from `report_ring.rs` (data fields only; the three
closures are parameters of `fill` here). -/
structure ReportData (T : Type) where
  next_src_at : ℕ
  tip : ReportDataTip T
  data_ring : List (Option T)
  stride : ℕ
  nr_slots : ℕ
  src_cadence : ℕ
  step : ℕ

/-- `ReportDataTip::consume`: report the aggregated tip (when it has
samples), advance it by one step and zero it. -/
def ReportDataTip.consume {T : Type} [Inhabited T] (tip : ReportDataTip T)
    (step : ℕ) : ReportDataTip T × Option (T × ℕ) :=
  (⟨tip.at_ + step, default, 0⟩,
    if 0 < tip.nr_samples then some (tip.data, tip.nr_samples) else none)

/-- The `while self.tip.at < at` catch-up loop of `ReportData::fill`,
with explicit fuel: each iteration advances the tip by `step`, so any
fuel of at least `at` iterations computes the loop's value whenever
`step > 0` (with `step = 0` the Rust loop would not terminate). -/
def catchUp {T : Type} [Inhabited T] (aggr : T → ℕ → T) (step at' : ℕ) :
    ℕ → ReportDataTip T → List (Option T) →
      ReportDataTip T × List (Option T)
  | 0, tip, ring => (tip, ring)
  | fuel + 1, tip, ring =>
    if tip.at_ < at' then
      let c := tip.consume step
      catchUp aggr step at' fuel c.1
        (ring ++ [c.2.map (fun p => aggr p.1 p.2)])
    else (tip, ring)

/-- Processing of one new source record in `ReportData::fill`: align its
timestamp, initialise the tip on first use, consume whole slots up to
the record's slot, accumulate the selected value, and close the slot
when the record is the last of its stride window. -/
def processRec {α T : Type} [Inhabited T] (sel : α → T) (acc : T → T → T)
    (aggr : T → ℕ → T) (s : ReportData T) (rec : ℕ × α) : ReportData T :=
  let at' := rec.1 / s.step * s.step
  let tip0 := if s.tip.at_ = 0 then { s.tip with at_ := at' } else s.tip
  let c := catchUp aggr s.step at' (at' + 1) tip0 s.data_ring
  let tip2 : ReportDataTip T :=
    { c.1 with
        data := acc c.1.data (sel rec.2)
        nr_samples := c.1.nr_samples + 1 }
  if rec.1 % s.step = (s.stride - 1) * s.src_cadence then
    let c2 := tip2.consume s.step
    { s with
        tip := c2.1
        data_ring := c.2 ++ [c2.2.map (fun p => aggr p.1 p.2)] }
  else
    { s with
        tip := tip2
        data_ring := c.2 }

/-- The back-to-front scan of `fill`: the records not yet consumed, i.e.
the suffix with `at ≥ next_src_at` (the ring is chronological and the
Rust loop breaks at the first older record from the back). -/
def newRecords {α : Type} (next_src_at : ℕ) (ring : List (ℕ × α)) :
    List (ℕ × α) :=
  (ring.reverse.takeWhile (fun r => decide (next_src_at ≤ r.1))).reverse

/-- `ReportData::fill` from `report_ring.rs`.  A call whose `stride`,
`nr_slots` or source cadence differs from the stored ones first clears
the ring and the accumulation tip (and stores the new parameters with
`step = stride * cadence`); an empty source ring returns immediately;
otherwise `next_src_at` is fast-forwarded to cover only `nr_slots` steps
(the `u64` subtraction `align(newest) − nr_slots·step` is truncated
here, where a Rust debug build would panic on underflow — the claims do
not reach that corner), the new records are folded in, `next_src_at`
advances past the newest record, and the data ring is truncated from the
front down to `nr_slots` entries. -/
def ReportData.fill {α T : Type} [Inhabited T] (sel : α → T)
    (acc : T → T → T) (aggr : T → ℕ → T) (s : ReportData T) (stride : ℕ)
    (nr_slots : ℕ) (src : ReportRing α) : ReportData T :=
  let s :=
    if stride ≠ s.stride ∨ nr_slots ≠ s.nr_slots ∨
        s.src_cadence ≠ src.cadence then
      { s with
          next_src_at := 0
          tip := ⟨0, default, 0⟩
          data_ring := []
          stride := stride
          nr_slots := nr_slots
          src_cadence := src.cadence
          step := stride * src.cadence }
    else s
  match src.ring.getLast? with
  | none => s
  | some newest =>
    let ff := max s.next_src_at (newest.1 / s.step * s.step - nr_slots * s.step)
    let s := { s with next_src_at := ff }
    let recs := newRecords s.next_src_at src.ring
    let s := { s with next_src_at := newest.1 + s.src_cadence }
    let s := recs.foldl (processRec sel acc aggr) s
    { s with data_ring := s.data_ring.drop (s.data_ring.length - nr_slots) }

end Resctl

namespace Resctl

/-- C7: for every cgroup path starting with `/sys/fs/cgroup/`,
`read_swap_free` returns the minimum of the system-wide `swap_free` and,
over each ancestor directory from the leaf up to but excluding the root,
of `memory.swap.max − memory.swap.current` (literal `max` and an absent
`memory.swap.max` read as `u64::MAX`, an absent `memory.swap.current` as
`0`, the subtraction saturating at `0`); a path not starting with
`/sys/fs/cgroup/` is rejected with an error. -/
theorem read_swap_free_spec (meminfoSwapFree : ℕ) (dirs : List CgroupDir) :
    read_swap_free true meminfoSwapFree dirs =
      .ok ((dirs.map
            (fun d => swapMaxValue d.swapMax - swapCurrentValue d.swapCurrent)).foldl
            min meminfoSwapFree) ∧
    ∀ free : ℕ, (read_swap_free false free dirs).isOk = false := by
  constructor
  · simp only [read_swap_free, Bool.not_true, Bool.false_eq_true, if_false,
      List.foldl_map]
    rfl
  · intro free
    rfl

/-- Witness for `read_swap_free_spec` at a concrete input (the theorem
has no hypothesis, but we evaluate it on a concrete chain anyway to show
the definitions compute). -/
theorem read_swap_free_example :
    read_swap_free true 1000
      [⟨.val 700, some 100⟩, ⟨.litMax, some 50⟩, ⟨.val 30, none⟩] =
      .ok 30 := by norm_num [read_swap_free, swapFreeStep, swapMaxValue,
        swapCurrentValue, U64MAX]

/-- C10: for consecutive samples with `dur > 0`, `UsageTracker::update`
leaves `io_rbps` (resp. `io_wbps`) at `0` when the cumulative read
(write) byte counter decreased and otherwise sets it to the byte delta
divided by `dur`; the `io_util` computation performs the unguarded `u64`
subtraction `cur.io_usage - last.io_usage`, so the update is total
exactly when the io cost-usage counter did not decrease. -/
theorem usageTrackerUpdate_spec (last cur : UsageCounters) (dur : ℚ)
    (hdur : 0 < dur) :
    ((usageTrackerUpdate last cur dur).isSome ↔
      last.io_usage ≤ cur.io_usage) ∧
    ∀ r, usageTrackerUpdate last cur dur = some r →
      (cur.io_rbytes < last.io_rbytes → r.io_rbps = 0) ∧
      (last.io_rbytes ≤ cur.io_rbytes →
        r.io_rbps = roundToNat ((cur.io_rbytes - last.io_rbytes : ℕ) / dur)) ∧
      (cur.io_wbytes < last.io_wbytes → r.io_wbps = 0) ∧
      (last.io_wbytes ≤ cur.io_wbytes →
        r.io_wbps = roundToNat ((cur.io_wbytes - last.io_wbytes : ℕ) / dur)) ∧
      r.io_util = ((cur.io_usage - last.io_usage : ℕ) : ℚ) / 1000000 / dur := by
  unfold usageTrackerUpdate u64sub
  rw [if_pos hdur]
  by_cases h : last.io_usage ≤ cur.io_usage
  · rw [if_pos h]
    refine ⟨by simpa using h, ?_⟩
    intro r hr
    simp only [Option.some_inj] at hr
    subst hr
    refine ⟨fun hlt => ?_, fun hle => ?_, fun hlt => ?_, fun hle => ?_, rfl⟩
    · simp [Nat.not_le.mpr hlt]
    · simp [hle]
    · simp [Nat.not_le.mpr hlt]
    · simp [hle]
  · rw [if_neg h]
    exact ⟨by simpa using h, fun r hr => by cases hr⟩

/-- Helper: a tick strictly before the deadline only accumulates. -/
theorem tick_pre (s : ReportFileState) (r : Report) (t : ℕ)
    (f : Option FreshSliceStats) (v : Option StatMap) (ht : t < s.next_at) :
    ReportFile.tick s r t f v =
      ({ s with
          hashd_acc0 := s.hashd_acc0.acc r.hashd0
          hashd_acc1 := s.hashd_acc1.acc r.hashd1
          mem_stat_acc := acc_slice_stat_map s.mem_stat_acc r.mem_stat
          io_stat_acc := acc_slice_stat_map s.io_stat_acc r.io_stat
          vmstat_acc := acc_stat_map s.vmstat_acc r.vmstat
          iocost_acc := ⟨s.iocost_acc.vrate + r.iocost.vrate⟩
          nr_samples := s.nr_samples + 1 }, none) := by
  unfold ReportFile.tick
  dsimp only
  rw [if_pos ht]

/-- Helper: a tick at or past the deadline emits the summary (divided
accumulators, identity fields from the latest sample, usage-derived
parts overwritten) and resets the aggregator. -/
theorem tick_emit (s : ReportFileState) (r : Report) (now : ℕ)
    (fr : FreshSliceStats) (vm : StatMap) (h : s.next_at ≤ now) :
    ReportFile.tick s r now (some fr) (some vm) =
      ({ s with
          next_at := (now / s.intv + 1) * s.intv
          hashd_acc0 := HashdReport.zero
          hashd_acc1 := HashdReport.zero
          mem_stat_acc := fun _ _ => 0
          io_stat_acc := fun _ _ => 0
          vmstat_acc := fun _ => 0
          iocost_acc := ⟨0⟩
          nr_samples := 0 },
      some
        { hashd0 := ⟨r.hashd0.svc, r.hashd0.phase,
            (s.hashd_acc0.load + r.hashd0.load) / ((s.nr_samples + 1 : ℕ) : ℚ),
            (s.hashd_acc0.rps + r.hashd0.rps) / ((s.nr_samples + 1 : ℕ) : ℚ),
            (s.hashd_acc0.lat + r.hashd0.lat) / ((s.nr_samples + 1 : ℕ) : ℚ)⟩
          hashd1 := ⟨r.hashd1.svc, r.hashd1.phase,
            (s.hashd_acc1.load + r.hashd1.load) / ((s.nr_samples + 1 : ℕ) : ℚ),
            (s.hashd_acc1.rps + r.hashd1.rps) / ((s.nr_samples + 1 : ℕ) : ℚ),
            (s.hashd_acc1.lat + r.hashd1.lat) / ((s.nr_samples + 1 : ℕ) : ℚ)⟩
          mem_stat := insertSlice (insertSlice (insertSlice
            (div_slice_stat_map (acc_slice_stat_map s.mem_stat_acc r.mem_stat)
              ((s.nr_samples + 1 : ℕ) : ℚ))
            ROOT_SLICE (fr.mem ROOT_SLICE)) WORK_SLICE (fr.mem WORK_SLICE))
            SYS_SLICE (fr.mem SYS_SLICE)
          io_stat := insertSlice (insertSlice (insertSlice
            (div_slice_stat_map (acc_slice_stat_map s.io_stat_acc r.io_stat)
              ((s.nr_samples + 1 : ℕ) : ℚ))
            ROOT_SLICE (fr.io ROOT_SLICE)) WORK_SLICE (fr.io WORK_SLICE))
            SYS_SLICE (fr.io SYS_SLICE)
          vmstat := vm
          iocost := ⟨(s.iocost_acc.vrate + r.iocost.vrate) /
            ((s.nr_samples + 1 : ℕ) : ℚ)⟩ }) := by
  unfold ReportFile.tick
  dsimp only
  rw [if_neg (not_lt.mpr h)]
  rfl

/-- Helper: accumulating a sample list strictly before the deadline sums
every metric, counts the samples and leaves the deadline alone. -/
theorem ticks_fields (pre : List (Report × ℕ)) :
    ∀ s : ReportFileState, (∀ p ∈ pre, p.2 < s.next_at) →
      (ReportFile.ticks s pre).intv = s.intv ∧
      (ReportFile.ticks s pre).next_at = s.next_at ∧
      (ReportFile.ticks s pre).nr_samples = s.nr_samples + pre.length ∧
      (ReportFile.ticks s pre).hashd_acc0.load =
        s.hashd_acc0.load + (pre.map (fun p => p.1.hashd0.load)).sum ∧
      (ReportFile.ticks s pre).hashd_acc0.rps =
        s.hashd_acc0.rps + (pre.map (fun p => p.1.hashd0.rps)).sum ∧
      (ReportFile.ticks s pre).hashd_acc0.lat =
        s.hashd_acc0.lat + (pre.map (fun p => p.1.hashd0.lat)).sum ∧
      (ReportFile.ticks s pre).hashd_acc1.load =
        s.hashd_acc1.load + (pre.map (fun p => p.1.hashd1.load)).sum ∧
      (ReportFile.ticks s pre).hashd_acc1.rps =
        s.hashd_acc1.rps + (pre.map (fun p => p.1.hashd1.rps)).sum ∧
      (ReportFile.ticks s pre).hashd_acc1.lat =
        s.hashd_acc1.lat + (pre.map (fun p => p.1.hashd1.lat)).sum ∧
      (ReportFile.ticks s pre).iocost_acc.vrate =
        s.iocost_acc.vrate + (pre.map (fun p => p.1.iocost.vrate)).sum ∧
      (∀ sl k, (ReportFile.ticks s pre).mem_stat_acc sl k =
        s.mem_stat_acc sl k + (pre.map (fun p => p.1.mem_stat sl k)).sum) ∧
      (∀ sl k, (ReportFile.ticks s pre).io_stat_acc sl k =
        s.io_stat_acc sl k + (pre.map (fun p => p.1.io_stat sl k)).sum) ∧
      (∀ k, (ReportFile.ticks s pre).vmstat_acc k =
        s.vmstat_acc k + (pre.map (fun p => p.1.vmstat k)).sum) := by
  induction pre with
  | nil =>
    intro s _
    simp [ReportFile.ticks]
  | cons p rest ih =>
    obtain ⟨r, t⟩ := p
    intro s hpre
    have ht : t < s.next_at := hpre (r, t) (List.mem_cons_self _ _)
    rw [ReportFile.ticks, tick_pre s r t none none ht]
    have hrest : ∀ q ∈ rest, q.2 <
        ({ s with
            hashd_acc0 := s.hashd_acc0.acc r.hashd0
            hashd_acc1 := s.hashd_acc1.acc r.hashd1
            mem_stat_acc := acc_slice_stat_map s.mem_stat_acc r.mem_stat
            io_stat_acc := acc_slice_stat_map s.io_stat_acc r.io_stat
            vmstat_acc := acc_stat_map s.vmstat_acc r.vmstat
            iocost_acc := ⟨s.iocost_acc.vrate + r.iocost.vrate⟩
            nr_samples := s.nr_samples + 1 } : ReportFileState).next_at :=
      fun q hq => hpre q (List.mem_cons_of_mem _ hq)
    obtain ⟨h1, h2, h3, h4, h5, h6, h7, h8, h9, h10, h11, h12, h13⟩ :=
      ih _ hrest
    refine ⟨h1, h2, ?_, ?_, ?_, ?_, ?_, ?_, ?_, ?_, ?_, ?_, ?_⟩
    · rw [h3]; simp; omega
    · rw [h4]; simp [HashdReport.acc]; ring
    · rw [h5]; simp [HashdReport.acc]; ring
    · rw [h6]; simp [HashdReport.acc]; ring
    · rw [h7]; simp [HashdReport.acc]; ring
    · rw [h8]; simp [HashdReport.acc]; ring
    · rw [h9]; simp [HashdReport.acc]; ring
    · rw [h10]; simp; ring
    · intro sl k; rw [h11 sl k]
      simp [acc_slice_stat_map, acc_stat_map]; ring
    · intro sl k; rw [h12 sl k]
      simp [acc_slice_stat_map, acc_stat_map]; ring
    · intro k; rw [h13 k]
      simp [acc_stat_map]; ring

/-- C2 (counterexample to the claim as stated): the emitted report's
`vmstat` does not equal the accumulated sum divided by `nr_samples` —
after the summary is built, the source overwrites `report.vmstat` with a
fresh `/proc/vmstat` read (rd-agent/src/report.rs:568-571): one sample
with `vmstat k = 3` averages to 3, yet the emitted value is the freshly
read 7. -/
theorem tick_vmstat_counterexample :
    ((ReportFile.tick (ReportFileState.fresh 1 10)
        ⟨⟨"a", 0, 0, 0, 0⟩, ⟨"a", 0, 0, 0, 0⟩, (fun _ _ => 0), (fun _ _ => 0),
          (fun _ => 3), ⟨2⟩⟩ 10
        (some ⟨fun _ _ => 0, fun _ _ => 0⟩) (some (fun _ => 7))).2.map
      (fun rep => rep.vmstat "k")) = some 7 ∧
    div_stat_map (acc_stat_map (ReportFileState.fresh 1 10).vmstat_acc
        (fun _ => 3)) ((0 + 1 : ℕ) : ℚ) "k" = 3 ∧
    (7 : ℚ) ≠ 3 := by
  refine ⟨?_, ?_, by norm_num⟩
  · rw [tick_emit _ _ _ _ _ (by norm_num [ReportFileState.fresh])]
    rfl
  · norm_num [div_stat_map, acc_stat_map, ReportFileState.fresh]

/-- C2 (amended): a tick with `now < next_at` only accumulates the
sample (`nr_samples + 1`) and writes no report; starting from a freshly
reset aggregator, after samples all strictly before the deadline and a
final sample at `now ≥ next_at`, the emitted report's hashd reports and
iocost snapshot equal the accumulated sums divided by `nr_samples` (the
arithmetic mean of the contributing samples), with the hashd identity
fields `svc` and `phase` from the latest sample — but the usage-derived
parts are then overwritten: the Root/Work/Sys slices of
`mem_stat`/`io_stat` come from the fresh usage sampler, and `vmstat`
from a fresh `/proc/vmstat` read (only non-special slices keep the
mean); afterwards every accumulator and `nr_samples` are reset to zero
and `next_at` becomes `((now/intv)+1)*intv`. -/
theorem tick_summary_spec (intv next_at : ℕ) (pre : List (Report × ℕ))
    (hpre : ∀ p ∈ pre, p.2 < next_at) (last : Report) (now : ℕ)
    (hnow : next_at ≤ now) (fr : FreshSliceStats) (vm : StatMap) :
    (∀ (s : ReportFileState) (r : Report) (t : ℕ)
        (f : Option FreshSliceStats) (v : Option StatMap), t < s.next_at →
      (ReportFile.tick s r t f v).2 = none ∧
      (ReportFile.tick s r t f v).1.nr_samples = s.nr_samples + 1 ∧
      (ReportFile.tick s r t f v).1.next_at = s.next_at) ∧
    (∃ rep,
      ReportFile.tick
          (ReportFile.ticks (ReportFileState.fresh intv next_at) pre)
          last now (some fr) (some vm) =
        (ReportFileState.fresh intv ((now / intv + 1) * intv), some rep) ∧
      rep.hashd0.svc = last.hashd0.svc ∧
      rep.hashd0.phase = last.hashd0.phase ∧
      rep.hashd1.svc = last.hashd1.svc ∧
      rep.hashd1.phase = last.hashd1.phase ∧
      rep.hashd0.load = ((pre.map (fun p => p.1.hashd0.load)).sum +
        last.hashd0.load) / ((pre.length + 1 : ℕ) : ℚ) ∧
      rep.hashd0.rps = ((pre.map (fun p => p.1.hashd0.rps)).sum +
        last.hashd0.rps) / ((pre.length + 1 : ℕ) : ℚ) ∧
      rep.hashd0.lat = ((pre.map (fun p => p.1.hashd0.lat)).sum +
        last.hashd0.lat) / ((pre.length + 1 : ℕ) : ℚ) ∧
      rep.hashd1.load = ((pre.map (fun p => p.1.hashd1.load)).sum +
        last.hashd1.load) / ((pre.length + 1 : ℕ) : ℚ) ∧
      rep.hashd1.rps = ((pre.map (fun p => p.1.hashd1.rps)).sum +
        last.hashd1.rps) / ((pre.length + 1 : ℕ) : ℚ) ∧
      rep.hashd1.lat = ((pre.map (fun p => p.1.hashd1.lat)).sum +
        last.hashd1.lat) / ((pre.length + 1 : ℕ) : ℚ) ∧
      rep.iocost.vrate = ((pre.map (fun p => p.1.iocost.vrate)).sum +
        last.iocost.vrate) / ((pre.length + 1 : ℕ) : ℚ) ∧
      (∀ sl, sl ≠ ROOT_SLICE → sl ≠ WORK_SLICE → sl ≠ SYS_SLICE → ∀ k,
        rep.mem_stat sl k = ((pre.map (fun p => p.1.mem_stat sl k)).sum +
          last.mem_stat sl k) / ((pre.length + 1 : ℕ) : ℚ) ∧
        rep.io_stat sl k = ((pre.map (fun p => p.1.io_stat sl k)).sum +
          last.io_stat sl k) / ((pre.length + 1 : ℕ) : ℚ)) ∧
      rep.mem_stat ROOT_SLICE = fr.mem ROOT_SLICE ∧
      rep.mem_stat WORK_SLICE = fr.mem WORK_SLICE ∧
      rep.mem_stat SYS_SLICE = fr.mem SYS_SLICE ∧
      rep.io_stat ROOT_SLICE = fr.io ROOT_SLICE ∧
      rep.io_stat WORK_SLICE = fr.io WORK_SLICE ∧
      rep.io_stat SYS_SLICE = fr.io SYS_SLICE ∧
      rep.vmstat = vm) := by
  constructor
  · intro s r t f v ht
    rw [tick_pre s r t f v ht]
    exact ⟨rfl, rfl, rfl⟩
  · have hpre' : ∀ p ∈ pre, p.2 < (ReportFileState.fresh intv next_at).next_at :=
      hpre
    obtain ⟨h1, h2, h3, h4, h5, h6, h7, h8, h9, h10, h11, h12, h13⟩ :=
      ticks_fields pre (ReportFileState.fresh intv next_at) hpre'
    set s1 := ReportFile.ticks (ReportFileState.fresh intv next_at) pre with hs1
    have hle : s1.next_at ≤ now := by rw [h2]; exact hnow
    have hRW : ROOT_SLICE ≠ WORK_SLICE := by decide
    have hRS : ROOT_SLICE ≠ SYS_SLICE := by decide
    have hWS : WORK_SLICE ≠ SYS_SLICE := by decide
    rw [tick_emit s1 last now fr vm hle]
    refine ⟨⟨⟨last.hashd0.svc, last.hashd0.phase,
        (s1.hashd_acc0.load + last.hashd0.load) / ((s1.nr_samples + 1 : ℕ) : ℚ),
        (s1.hashd_acc0.rps + last.hashd0.rps) / ((s1.nr_samples + 1 : ℕ) : ℚ),
        (s1.hashd_acc0.lat + last.hashd0.lat) / ((s1.nr_samples + 1 : ℕ) : ℚ)⟩,
      ⟨last.hashd1.svc, last.hashd1.phase,
        (s1.hashd_acc1.load + last.hashd1.load) / ((s1.nr_samples + 1 : ℕ) : ℚ),
        (s1.hashd_acc1.rps + last.hashd1.rps) / ((s1.nr_samples + 1 : ℕ) : ℚ),
        (s1.hashd_acc1.lat + last.hashd1.lat) / ((s1.nr_samples + 1 : ℕ) : ℚ)⟩,
      insertSlice (insertSlice (insertSlice
        (div_slice_stat_map (acc_slice_stat_map s1.mem_stat_acc last.mem_stat)
          ((s1.nr_samples + 1 : ℕ) : ℚ))
        ROOT_SLICE (fr.mem ROOT_SLICE)) WORK_SLICE (fr.mem WORK_SLICE))
        SYS_SLICE (fr.mem SYS_SLICE),
      insertSlice (insertSlice (insertSlice
        (div_slice_stat_map (acc_slice_stat_map s1.io_stat_acc last.io_stat)
          ((s1.nr_samples + 1 : ℕ) : ℚ))
        ROOT_SLICE (fr.io ROOT_SLICE)) WORK_SLICE (fr.io WORK_SLICE))
        SYS_SLICE (fr.io SYS_SLICE),
      vm,
      ⟨(s1.iocost_acc.vrate + last.iocost.vrate) /
        ((s1.nr_samples + 1 : ℕ) : ℚ)⟩⟩,
      ?_, rfl, rfl, rfl, rfl, ?_, ?_, ?_, ?_, ?_, ?_, ?_, ?_, ?_, ?_,
      ?_, ?_, ?_, ?_, rfl⟩
    · have hintv : s1.intv = intv := h1
      have hnr : s1.nr_samples = pre.length := by
        rw [h3]; simp [ReportFileState.fresh]
      rw [Prod.mk.injEq]
      constructor
      · show ({ s1 with
            next_at := (now / s1.intv + 1) * s1.intv
            hashd_acc0 := HashdReport.zero
            hashd_acc1 := HashdReport.zero
            mem_stat_acc := fun _ _ => 0
            io_stat_acc := fun _ _ => 0
            vmstat_acc := fun _ => 0
            iocost_acc := ⟨0⟩
            nr_samples := 0 } : ReportFileState) =
          ReportFileState.fresh intv ((now / intv + 1) * intv)
        rw [show ({ s1 with
            next_at := (now / s1.intv + 1) * s1.intv
            hashd_acc0 := HashdReport.zero
            hashd_acc1 := HashdReport.zero
            mem_stat_acc := fun _ _ => 0
            io_stat_acc := fun _ _ => 0
            vmstat_acc := fun _ => 0
            iocost_acc := ⟨0⟩
            nr_samples := 0 } : ReportFileState) =
          ReportFileState.fresh s1.intv ((now / s1.intv + 1) * s1.intv) from
            rfl]
        rw [hintv]
      · rfl
    · dsimp only
      rw [h4, h3]
      simp [ReportFileState.fresh, HashdReport.zero]
    · dsimp only
      rw [h5, h3]
      simp [ReportFileState.fresh, HashdReport.zero]
    · dsimp only
      rw [h6, h3]
      simp [ReportFileState.fresh, HashdReport.zero]
    · dsimp only
      rw [h7, h3]
      simp [ReportFileState.fresh, HashdReport.zero]
    · dsimp only
      rw [h8, h3]
      simp [ReportFileState.fresh, HashdReport.zero]
    · dsimp only
      rw [h9, h3]
      simp [ReportFileState.fresh, HashdReport.zero]
    · dsimp only
      rw [h10, h3]
      simp [ReportFileState.fresh]
    · intro sl hroot hwork hsys k
      constructor
      · dsimp only
        simp only [insertSlice, if_neg hsys, if_neg hwork, if_neg hroot,
          div_slice_stat_map, div_stat_map, acc_slice_stat_map, acc_stat_map]
        rw [h11 sl k, h3]
        simp [ReportFileState.fresh]
      · dsimp only
        simp only [insertSlice, if_neg hsys, if_neg hwork, if_neg hroot,
          div_slice_stat_map, div_stat_map, acc_slice_stat_map, acc_stat_map]
        rw [h12 sl k, h3]
        simp [ReportFileState.fresh]
    · dsimp only
      simp [insertSlice, if_neg hRS, if_neg hRW]
    · dsimp only
      simp [insertSlice, if_neg hWS]
    · dsimp only
      simp [insertSlice]
    · dsimp only
      simp [insertSlice, if_neg hRS, if_neg hRW]
    · dsimp only
      simp [insertSlice, if_neg hWS]
    · dsimp only
      simp [insertSlice]

/-- Witness for `tick_summary_spec`: from a fresh 1-second aggregator
with deadline 10, a tick at time 5 (before the deadline) emits nothing,
bumps `nr_samples` and keeps the deadline. -/
theorem tick_summary_spec_witness :
    (∀ p ∈ ([] : List (Report × ℕ)), p.2 < 10) ∧ (10 : ℕ) ≤ 10 ∧
    5 < (ReportFileState.fresh 1 10).next_at ∧
    ((ReportFile.tick (ReportFileState.fresh 1 10)
        ⟨⟨"a", 0, 0, 0, 0⟩, ⟨"a", 0, 0, 0, 0⟩, (fun _ _ => 0), (fun _ _ => 0),
          (fun _ => 3), ⟨2⟩⟩ 5 none none).2 = none ∧
      (ReportFile.tick (ReportFileState.fresh 1 10)
        ⟨⟨"a", 0, 0, 0, 0⟩, ⟨"a", 0, 0, 0, 0⟩, (fun _ _ => 0), (fun _ _ => 0),
          (fun _ => 3), ⟨2⟩⟩ 5 none none).1.nr_samples =
        (ReportFileState.fresh 1 10).nr_samples + 1 ∧
      (ReportFile.tick (ReportFileState.fresh 1 10)
        ⟨⟨"a", 0, 0, 0, 0⟩, ⟨"a", 0, 0, 0, 0⟩, (fun _ _ => 0), (fun _ _ => 0),
          (fun _ => 3), ⟨2⟩⟩ 5 none none).1.next_at =
        (ReportFileState.fresh 1 10).next_at) :=
  ⟨fun p hp => absurd hp (List.not_mem_nil p), le_rfl,
    by norm_num [ReportFileState.fresh],
    (tick_summary_spec 1 10 [] (fun p hp => absurd hp (List.not_mem_nil p))
      ⟨⟨"a", 0, 0, 0, 0⟩, ⟨"a", 0, 0, 0, 0⟩, (fun _ _ => 0), (fun _ _ => 0),
        (fun _ => 3), ⟨2⟩⟩ 10 le_rfl ⟨fun _ _ => 0, fun _ _ => 0⟩
      (fun _ => 7)).1 (ReportFileState.fresh 1 10)
      ⟨⟨"a", 0, 0, 0, 0⟩, ⟨"a", 0, 0, 0, 0⟩, (fun _ _ => 0), (fun _ _ => 0),
        (fun _ => 3), ⟨2⟩⟩ 5 none none
      (by norm_num [ReportFileState.fresh])⟩

/-- Helper: `apply_cmd` always leaves `cmd_ack_seq = cmd.cmd_seq`. -/
theorem apply_cmd_ack (d : RunnerModel) (cmd : Cmd) (bench : BenchKnobs)
    (fr : Bool) (tm : ℕ) :
    (apply_cmd d cmd bench fr tm).1.cmd_ack_seq = cmd.cmd_seq := by
  rcases d with ⟨st, wb, wi, fa, bh, bi, ack⟩
  cases st <;> simp only [apply_cmd, become_idle] <;> split_ifs <;> rfl

/-- Helper: the first event of every `apply_cmd` trace is the ack
commit. -/
theorem apply_cmd_trace_head (d : RunnerModel) (cmd : Cmd)
    (bench : BenchKnobs) (fr : Bool) (tm : ℕ) :
    (apply_cmd d cmd bench fr tm).2.2.head? =
      some (.ackCommit cmd.cmd_seq) := by
  rcases d with ⟨st, wb, wi, fa, bh, bi, ack⟩
  cases st <;> simp only [apply_cmd, become_idle] <;> split_ifs <;> rfl

/-- Helper: across any sequence of reconcile iterations the committed
ack sequence is exactly the command's sequence, step by step. -/
theorem runCmds_ack_map (bench : BenchKnobs) (fr : Bool) (tm : ℕ) :
    ∀ (cmds : List Cmd) (d0 : RunnerModel),
      (runCmds bench fr tm d0 cmds).map (fun r => r.cmd_ack_seq) =
        cmds.map (fun c => c.cmd_seq) := by
  intro cmds
  induction cmds with
  | nil => intro d0; rfl
  | cons c rest ih =>
    intro d0
    simp only [runCmds, List.map_cons, ih]
    rw [apply_cmd_ack]

/-- C6: on every `apply_cmd` invocation `cmd_ack.cmd_seq` is set to
`cmd.cmd_seq` and the ack commit is the first element of the action
trace — before the swappiness/zswap writes, balloon resize, service
start/stop or state transition; consequently, when `cmd.cmd_seq` is
non-decreasing across reloads, the committed ack sequence is
monotonically non-decreasing and never exceeds the current
`cmd.cmd_seq`. -/
theorem cmd_ack_spec (d : RunnerModel) (cmd : Cmd) (bench : BenchKnobs)
    (fr : Bool) (tm : ℕ) :
    (apply_cmd d cmd bench fr tm).2.2.head? =
      some (.ackCommit cmd.cmd_seq) ∧
    (apply_cmd d cmd bench fr tm).1.cmd_ack_seq = cmd.cmd_seq ∧
    ∀ (d0 : RunnerModel) (cmds : List Cmd),
      (runCmds bench fr tm d0 cmds).map (fun r => r.cmd_ack_seq) =
        cmds.map (fun c => c.cmd_seq) ∧
      (List.Chain' (· ≤ ·) (cmds.map (fun c => c.cmd_seq)) →
        List.Chain' (· ≤ ·)
          ((runCmds bench fr tm d0 cmds).map (fun r => r.cmd_ack_seq))) := by
  refine ⟨apply_cmd_trace_head d cmd bench fr tm,
    apply_cmd_ack d cmd bench fr tm, fun d0 cmds => ?_⟩
  refine ⟨runCmds_ack_map bench fr tm cmds d0, fun hchain => ?_⟩
  rw [runCmds_ack_map bench fr tm cmds d0]
  exact hchain

/-- Witness for `cmd_ack_spec`: two consecutive commands with sequences
3 then 5 leave acks `[3, 5]`, a non-decreasing chain. -/
theorem cmd_ack_spec_witness :
    List.Chain' (· ≤ ·)
      (([⟨3, 0, 0, 0, 0, none, none⟩, ⟨5, 0, 0, 0, 0, none, none⟩] :
          List Cmd).map (fun c => c.cmd_seq)) ∧
    List.Chain' (· ≤ ·)
      ((runCmds ⟨0, 0, ⟨[]⟩, ⟨0, 0, 0, 0, 0, 0⟩⟩ false 0
          ⟨.Idle, false, false, false, false, false, 0⟩
          [⟨3, 0, 0, 0, 0, none, none⟩, ⟨5, 0, 0, 0, 0, none, none⟩]).map
        (fun r => r.cmd_ack_seq)) := by
  have h : List.Chain' (· ≤ ·)
      (([⟨3, 0, 0, 0, 0, none, none⟩, ⟨5, 0, 0, 0, 0, none, none⟩] :
          List Cmd).map (fun c => c.cmd_seq)) := by
    simp [List.chain'_cons]
  exact ⟨h, ((cmd_ack_spec ⟨.Idle, false, false, false, false, false, 0⟩
    ⟨3, 0, 0, 0, 0, none, none⟩ ⟨0, 0, ⟨[]⟩, ⟨0, 0, 0, 0, 0, 0⟩⟩ false 0).2.2
    ⟨.Idle, false, false, false, false, false, 0⟩
    [⟨3, 0, 0, 0, 0, none, none⟩, ⟨5, 0, 0, 0, 0, none, none⟩]).2 h⟩

/-- C3: one `apply_cmd` step from `Idle` transitions to `BenchIoCost`
(starting the iocost bench service, forcing a reload) exactly when
`cmd.bench_iocost_seq > bench.iocost_seq`; otherwise, exactly when
`cmd.bench_hashd_seq > bench.hashd_seq` and (`bench.iocost_seq > 0` or
force-running), it sets the balloon to the requested size, stops OOMD,
starts the hashd bench and transitions to `BenchHashd`; otherwise,
exactly when `bench.hashd_seq > 0` or force-running, it transitions to
`Running` with `repeat = true`; otherwise it stays `Idle`, logging a
one-shot warning (latched by `warned_bench` / `warned_init`). -/
theorem apply_cmd_idle_spec (d : RunnerModel) (cmd : Cmd)
    (bench : BenchKnobs) (fr : Bool) (tm : ℕ) (hidle : d.state = .Idle) :
    ((apply_cmd d cmd bench fr tm).1.state = .BenchIoCost ↔
      bench.iocost_seq < cmd.bench_iocost_seq) ∧
    (bench.iocost_seq < cmd.bench_iocost_seq →
      (apply_cmd d cmd bench fr tm).1.bench_iocost = true ∧
      (apply_cmd d cmd bench fr tm).1.force_apply = true ∧
      (apply_cmd d cmd bench fr tm).2.2 =
        [.ackCommit cmd.cmd_seq, .applySwappiness, .applyZswap,
          .startIoCostBench]) ∧
    ((apply_cmd d cmd bench fr tm).1.state = .BenchHashd ↔
      (¬bench.iocost_seq < cmd.bench_iocost_seq ∧
        bench.hashd_seq < cmd.bench_hashd_seq ∧
        (0 < bench.iocost_seq ∨ fr = true))) ∧
    (¬bench.iocost_seq < cmd.bench_iocost_seq →
      bench.hashd_seq < cmd.bench_hashd_seq →
      (0 < bench.iocost_seq ∨ fr = true) →
      (apply_cmd d cmd bench fr tm).1.bench_hashd = true ∧
      (apply_cmd d cmd bench fr tm).1.force_apply = true ∧
      (apply_cmd d cmd bench fr tm).2.2 =
        [.ackCommit cmd.cmd_seq, .applySwappiness, .applyZswap,
          .setBalloon cmd.bench_hashd_balloon_size, .stopOomd,
          .startHashdBench]) ∧
    ((apply_cmd d cmd bench fr tm).1.state = .Running ↔
      (¬bench.iocost_seq < cmd.bench_iocost_seq ∧
        ¬bench.hashd_seq < cmd.bench_hashd_seq ∧
        (0 < bench.hashd_seq ∨ fr = true))) ∧
    ((apply_cmd d cmd bench fr tm).2.1 = true ↔
      (apply_cmd d cmd bench fr tm).1.state = .Running) ∧
    (¬bench.iocost_seq < cmd.bench_iocost_seq →
      bench.hashd_seq < cmd.bench_hashd_seq →
      ¬(0 < bench.iocost_seq ∨ fr = true) →
      (apply_cmd d cmd bench fr tm).1.state = .Idle ∧
      (apply_cmd d cmd bench fr tm).1.warned_bench = true ∧
      (apply_cmd d cmd bench fr tm).2.2 =
        [.ackCommit cmd.cmd_seq, .applySwappiness, .applyZswap] ++
          (if d.warned_bench = false then [.warn] else [])) ∧
    (¬bench.iocost_seq < cmd.bench_iocost_seq →
      ¬bench.hashd_seq < cmd.bench_hashd_seq →
      ¬(0 < bench.hashd_seq ∨ fr = true) →
      (apply_cmd d cmd bench fr tm).1.state = .Idle ∧
      (apply_cmd d cmd bench fr tm).1.warned_init = true ∧
      (apply_cmd d cmd bench fr tm).2.2 =
        [.ackCommit cmd.cmd_seq, .applySwappiness, .applyZswap] ++
          (if d.warned_init = false then [.warn] else [])) := by
  rcases d with ⟨st, wb, wi, fa, bh, bi, ack⟩
  cases hidle
  by_cases c1 : bench.iocost_seq < cmd.bench_iocost_seq
  · simp [apply_cmd, c1]
  · by_cases c2 : bench.hashd_seq < cmd.bench_hashd_seq
    · by_cases c3 : 0 < bench.iocost_seq ∨ fr = true
      · simp [apply_cmd, c1, c2, c3]
      · cases wb <;> simp [apply_cmd, c1, c2, c3]
    · by_cases c5 : 0 < bench.hashd_seq ∨ fr = true
      · simp [apply_cmd, c1, c2, c5]
      · cases wi <;> simp [apply_cmd, c1, c2, c5]

/-- Witness for `apply_cmd_idle_spec`: the spec's end-to-end scenario —
from `Idle` with `bench = (0,0)` and `cmd.bench_iocost_seq = 1` the
runner moves to `BenchIoCost`. -/
theorem apply_cmd_idle_spec_witness :
    (⟨.Idle, false, false, false, false, false, 0⟩ : RunnerModel).state =
      .Idle ∧
    ((apply_cmd ⟨.Idle, false, false, false, false, false, 0⟩
        ⟨1, 0, 1, 0, 0, none, none⟩ ⟨0, 0, ⟨[]⟩, ⟨0, 0, 0, 0, 0, 0⟩⟩ false
        0).1.state = .BenchIoCost ↔
      (⟨0, 0, ⟨[]⟩, ⟨0, 0, 0, 0, 0, 0⟩⟩ : BenchKnobs).iocost_seq <
        (⟨1, 0, 1, 0, 0, none, none⟩ : Cmd).bench_iocost_seq) :=
  ⟨rfl, (apply_cmd_idle_spec ⟨.Idle, false, false, false, false, false, 0⟩
    ⟨1, 0, 1, 0, 0, none, none⟩ ⟨0, 0, ⟨[]⟩, ⟨0, 0, 0, 0, 0, 0⟩⟩ false 0
    rfl).1⟩

/-- Witness for `usageTrackerUpdate_spec`: a concrete consecutive pair
with `dur = 2`, a decreasing read counter, an increasing write counter
and a non-decreasing cost-usage counter. -/
theorem usageTrackerUpdate_spec_witness :
    (0 : ℚ) < 2 ∧
    ((usageTrackerUpdate ⟨100, 10, 5⟩ ⟨40, 30, 11⟩ 2).isSome ↔
      (5 : ℕ) ≤ 11) := by
  refine ⟨by norm_num, (usageTrackerUpdate_spec ⟨100, 10, 5⟩ ⟨40, 30, 11⟩ 2
    (by norm_num)).1⟩

/-- Helper: an `if` whose branches are both `Except.ok` is `ok`. -/
theorem isOk_ite_ok {ε α : Type} {c : Prop} [Decidable c] (a b : α) :
    (if c then Except.ok a else Except.ok b : Except ε α).isOk = true := by
  split <;> rfl

/-- C8: `IoCostQoSJob::parse` fails exactly when the effective vrate
range (defaulting to `vrate_min = 0`, `vrate_max = 100` when the
properties are absent) has `vrate_min < 0`, `vrate_max < 0` or
`vrate_min ≥ vrate_max`; in particular `vrate-min = vrate-max` is always
rejected with the range error, in which case no `ParseResult` (and hence
no plan) is produced. -/
theorem parse_rejects_invalid_range (props : QoSSpecProps)
    (prev : Option IoCostQoSRecord) (rng : ℚ) (fuel : ℕ) :
    ((IoCostQoSJob.parse props prev rng fuel).isOk = false ↔
      (props.vrate_min.getD 0 < 0 ∨ props.vrate_max.getD DFL_VRATE_MAX < 0 ∨
        props.vrate_min.getD 0 ≥ props.vrate_max.getD DFL_VRATE_MAX)) ∧
    ∀ v : ℚ, props.vrate_min = some v → props.vrate_max = some v →
      IoCostQoSJob.parse props prev rng fuel = .error "invalid vrate range" := by
  constructor
  · simp only [IoCostQoSJob.parse]
    by_cases h : props.vrate_min.getD 0 < 0 ∨ props.vrate_max.getD DFL_VRATE_MAX < 0 ∨
        props.vrate_min.getD 0 ≥ props.vrate_max.getD DFL_VRATE_MAX
    · rw [if_pos h]
      exact iff_of_true rfl h
    · rw [if_neg h]
      refine iff_of_false ?_ h
      rw [isOk_ite_ok]
      simp
  · intro v h1 h2
    unfold IoCostQoSJob.parse
    rw [if_pos]
    right; right
    rw [h1, h2]
    simp

/-- Witness for `parse_rejects_invalid_range`: `vrate-min = vrate-max =
50` is rejected. -/
theorem parse_rejects_invalid_range_witness :
    (⟨some 50, some 50, some 5, none, []⟩ : QoSSpecProps).vrate_min = some 50 ∧
    IoCostQoSJob.parse ⟨some 50, some 50, some 5, none, []⟩ none 0 10 =
      .error "invalid vrate range" :=
  ⟨rfl, (parse_rejects_invalid_range ⟨some 50, some 50, some 5, none, []⟩
    none 0 10).2 50 rfl rfl⟩

/-- Helper: closed form of the planning walk.  Starting `k` clicks above
the effective minimum `m` with a step `d ≥ 0.001`, the walk emits
exactly the `k + 1` points `m + k·d, m + (k-1)·d, …, m`, for every
sufficiently large fuel (so the Rust loop terminates there with this
value). -/
theorem planWalk_closed (d m : ℚ) (hd : 1 / 1000 ≤ d) :
    ∀ k fuel : ℕ, k + 2 ≤ fuel →
      planWalk d m (m + (k : ℚ) * d) fuel =
        (List.range (k + 1)).map
          (fun i : ℕ => planOvr (m + (k : ℚ) * d - (i : ℚ) * d)) := by
  intro k
  induction k with
  | zero =>
    intro fuel hfuel
    obtain ⟨f, rfl⟩ : ∃ f, fuel = f + 2 := ⟨fuel - 2, by omega⟩
    have h1 : m + ((0 : ℕ) : ℚ) * d > m - 1 / 1000 := by push_cast; linarith
    have h2 : ¬(m + ((0 : ℕ) : ℚ) * d - d > m - 1 / 1000) := by push_cast; linarith
    rw [planWalk, if_pos h1, planWalk, if_neg h2]
    norm_num [List.range_succ, planOvr, IoCostQoSOvr.sanitize]
  | succ k ih =>
    intro fuel hfuel
    obtain ⟨f, rfl⟩ : ∃ f, fuel = f + 1 := ⟨fuel - 1, by omega⟩
    have hf : k + 2 ≤ f := by omega
    have h1 : m + ((k + 1 : ℕ) : ℚ) * d > m - 1 / 1000 := by
      push_cast
      nlinarith [Nat.cast_nonneg (α := ℚ) k]
    rw [planWalk, if_pos h1]
    have harg : m + ((k + 1 : ℕ) : ℚ) * d - d = m + (k : ℚ) * d := by push_cast; ring
    rw [harg, ih f hf]
    conv_rhs => rw [List.range_succ_eq_map, List.map_cons, List.map_map]
    congr 1
    · norm_num [planOvr, IoCostQoSOvr.sanitize]
    · refine List.map_congr_left fun i _ => ?_
      simp only [Function.comp_apply]
      show planOvr _ = planOvr _
      congr 1
      push_cast
      ring

/-- C1 (counterexample to the claim as stated): with `vrate-max = 2` and
`vrate-intvs = 5` (dithering disabled, `vrate_min` defaulting to `0`)
the click is `0.4 < 1`, the absolute floor `VRATE_INTVS_MIN = 1` takes
over, and planning appends only the 3 points `2, 1.6, 1.2` — not the 5
points `2, 1.6, 1.2, 0.8, 0.4` the claim demands. -/
theorem qos_planning_counterexample :
    (IoCostQoSJob.parse ⟨none, some 2, some 5, none, []⟩ none 0 6).toOption =
      some ⟨[{ off := true }, planOvr 2, planOvr (8 / 5), planOvr (6 / 5)],
        none⟩ ∧
    ([{ off := true }, planOvr 2, planOvr (8 / 5), planOvr (6 / 5)] :
      List IoCostQoSOvr).length ≠ 1 + 5 := by
  constructor
  · norm_num [IoCostQoSJob.parse, planParams, planWalk, planOvr,
      IoCostQoSOvr.sanitize, DFL_VRATE_MAX, DFL_VRATE_INTVS, VRATE_INTVS_MIN,
      Except.toOption]
  · norm_num

/-- C1 (amended): for a job spec with `vrate_intvs = N > 0` and
dithering disabled, QoS planning appends after the initial `off`
override (and any explicit override propsets) exactly `N` points with
`min = max`: when `vrate_min = 0` and `vrate_max = V` with a click
`V/N ≥ 1` — the absolute floor `VRATE_INTVS_MIN = 1` makes the walk stop
early otherwise — the values are `V, V − V/N, …, V/N`; when
`vrate_min = a ≥ 1` (again, below 1 the floor interferes) and
`vrate_max = b > a` with step `D = (b−a)/(N−1) ≥ 0.001` (a smaller step
emits extra points within the loop's 0.001 tolerance), the values are
`b, b−D, …, a`. -/
theorem qos_planning_points (props : QoSSpecProps)
    (prev : Option IoCostQoSRecord) (rng : ℚ) (N fuel : ℕ)
    (hN : props.vrate_intvs = some N) (hNpos : 0 < N)
    (hdith : props.dither = none) (hfuel : N + 1 ≤ fuel) :
    (∀ V : ℚ, props.vrate_min.getD 0 = 0 →
      props.vrate_max.getD DFL_VRATE_MAX = V → 1 ≤ V / (N : ℚ) →
      IoCostQoSJob.parse props prev rng fuel =
        .ok ⟨({ off := true } :: props.extraOvrs) ++
          (List.range N).map
            (fun i : ℕ => planOvr (V - (i : ℚ) * (V / (N : ℚ)))), none⟩) ∧
    (∀ a b : ℚ, props.vrate_min.getD 0 = a →
      props.vrate_max.getD DFL_VRATE_MAX = b → 1 ≤ a → a < b →
      1 / 1000 ≤ (b - a) / ((N - 1 : ℕ) : ℚ) →
      IoCostQoSJob.parse props prev rng fuel =
        .ok ⟨({ off := true } :: props.extraOvrs) ++
          (List.range N).map
            (fun i : ℕ =>
              planOvr (b - (i : ℚ) * ((b - a) / ((N - 1 : ℕ) : ℚ)))), none⟩) := by
  have hNne : N ≠ 0 := Nat.pos_iff_ne_zero.mp hNpos
  have hNQ : (0 : ℚ) < (N : ℚ) := by exact_mod_cast hNpos
  constructor
  · intro V hmin hmax hclick
    have hV : 0 < V := by
      have h1 : (1 : ℚ) * (N : ℚ) ≤ V / (N : ℚ) * (N : ℚ) :=
        mul_le_mul_of_nonneg_right hclick (le_of_lt hNQ)
      rw [div_mul_cancel₀ _ (ne_of_gt hNQ)] at h1
      linarith
    have hpp : planParams 0 V N = (V / ↑N, V / ↑N, -(V / ↑N) / 2) := by
      unfold planParams
      rw [if_pos rfl]
    simp only [IoCostQoSJob.parse, hmin, hmax, hN, hdith, Option.getD_some,
      Option.isSome_none, Bool.false_eq_true, if_false]
    rw [if_neg (by push_neg; exact ⟨le_refl 0, le_of_lt hV, hV⟩)]
    rw [show (if (({ off := true } : IoCostQoSOvr) :: props.extraOvrs).length = 1 ∧
        N = 0 then DFL_VRATE_INTVS else N) = N from if_neg (fun h => hNne h.2)]
    rw [if_pos hNpos, hpp]
    dsimp only
    simp only [Option.getD_none, add_zero, VRATE_INTVS_MIN]
    rw [max_eq_left hclick]
    have hstart : V = V / (N : ℚ) + ((N - 1 : ℕ) : ℚ) * (V / (N : ℚ)) := by
      rw [Nat.cast_sub hNpos]
      push_cast
      field_simp
      ring
    rw [show planWalk (V / (N : ℚ)) (V / (N : ℚ)) V fuel =
        planWalk (V / (N : ℚ)) (V / (N : ℚ))
          (V / (N : ℚ) + ((N - 1 : ℕ) : ℚ) * (V / (N : ℚ))) fuel from by
      rw [← hstart]]
    rw [planWalk_closed (V / (N : ℚ)) (V / (N : ℚ)) (by linarith) (N - 1) fuel
      (by omega)]
    rw [show N - 1 + 1 = N from by omega]
    have hmapeq :
        (List.range N).map
            (fun i : ℕ => planOvr (V / (N : ℚ) + ((N - 1 : ℕ) : ℚ) * (V / (N : ℚ)) -
              (i : ℚ) * (V / (N : ℚ)))) =
          (List.range N).map
            (fun i : ℕ => planOvr (V - (i : ℚ) * (V / (N : ℚ)))) :=
      List.map_congr_left fun i _ => by rw [← hstart]
    rw [hmapeq]
  · intro a b hmin hmax ha hab hD
    have hN2 : 2 ≤ N := by
      by_contra hlt
      have h1 : N = 1 := by omega
      rw [h1] at hD
      norm_num at hD
    have hNQ1 : ((N - 1 : ℕ) : ℚ) ≠ 0 := by
      have h1 : (0 : ℕ) < N - 1 := by omega
      exact_mod_cast Nat.pos_iff_ne_zero.mp h1
    have hane : ¬ a = 0 := by intro h; rw [h] at ha; linarith
    have hpp : planParams a b N = ((b - a) / ((N - 1 : ℕ) : ℚ), a, 0) := by
      unfold planParams
      rw [if_neg hane]
    simp only [IoCostQoSJob.parse, hmin, hmax, hN, hdith, Option.getD_some,
      Option.isSome_none, Bool.false_eq_true, if_false]
    rw [if_neg (by push_neg; exact ⟨by linarith, by linarith, by linarith⟩)]
    rw [show (if (({ off := true } : IoCostQoSOvr) :: props.extraOvrs).length = 1 ∧
        N = 0 then DFL_VRATE_INTVS else N) = N from if_neg (fun h => hNne h.2)]
    rw [if_pos hNpos, hpp]
    dsimp only
    simp only [Option.getD_none, add_zero, VRATE_INTVS_MIN]
    rw [max_eq_left ha]
    have hcast : ((N - 1 : ℕ) : ℚ) = (N : ℚ) - 1 := by
      rw [Nat.cast_sub (by omega)]
      norm_num
    have hNQ2 : (N : ℚ) - 1 ≠ 0 := by
      have h2 : (2 : ℚ) ≤ (N : ℚ) := by exact_mod_cast hN2
      linarith
    have hstart : b = a + ((N - 1 : ℕ) : ℚ) * ((b - a) / ((N - 1 : ℕ) : ℚ)) := by
      rw [hcast, mul_div_assoc', mul_comm, mul_div_assoc, div_self hNQ2]
      ring
    rw [show planWalk ((b - a) / ((N - 1 : ℕ) : ℚ)) a b fuel =
        planWalk ((b - a) / ((N - 1 : ℕ) : ℚ)) a
          (a + ((N - 1 : ℕ) : ℚ) * ((b - a) / ((N - 1 : ℕ) : ℚ))) fuel from by
      rw [← hstart]]
    rw [planWalk_closed _ a hD (N - 1) fuel (by omega)]
    rw [show N - 1 + 1 = N from by omega]
    have hmapeq :
        (List.range N).map
            (fun i : ℕ => planOvr (a + ((N - 1 : ℕ) : ℚ) *
              ((b - a) / ((N - 1 : ℕ) : ℚ)) -
              (i : ℚ) * ((b - a) / ((N - 1 : ℕ) : ℚ)))) =
          (List.range N).map
            (fun i : ℕ => planOvr (b - (i : ℚ) * ((b - a) / ((N - 1 : ℕ) : ℚ)))) :=
      List.map_congr_left fun i _ => by rw [← hstart]
    rw [hmapeq]

/-- Witness for `qos_planning_points`: the spec's own example
`vrate-min=0 vrate-max=100 vrate-intvs=5` plans the six runs
`[off, 100, 80, 60, 40, 20]`. -/
theorem qos_planning_points_witness :
    ((⟨none, some 100, some 5, none, []⟩ : QoSSpecProps).vrate_intvs = some 5 ∧
      (0 : ℕ) < 5 ∧
      (⟨none, some 100, some 5, none, []⟩ : QoSSpecProps).dither = none ∧
      (5 : ℕ) + 1 ≤ 6) ∧
    IoCostQoSJob.parse ⟨none, some 100, some 5, none, []⟩ none 0 6 =
      .ok ⟨({ off := true } :: ([] : List IoCostQoSOvr)) ++
        (List.range 5).map
          (fun i : ℕ => planOvr ((100 : ℚ) - (i : ℚ) * ((100 : ℚ) / ((5 : ℕ) : ℚ)))),
        none⟩ :=
  ⟨⟨rfl, by norm_num, rfl, by norm_num⟩,
    (qos_planning_points ⟨none, some 100, some 5, none, []⟩ none 0 5 6 rfl
      (by norm_num) rfl (by norm_num)).1 100 rfl rfl (by norm_num)⟩

/-- C5 (counterexample to the claim as stated): the previous record
`cex5Prec` carries `dither_dist = 5` but its base model does not match
the current bench knobs (`prev_matches` is `false`); planning
nevertheless reuses the distance 5 instead of drawing a fresh one
(which would be `rng + shift = 0 + (-(100/5)/2) = -10`). -/
theorem dither_reuse_counterexample :
    IoCostQoSJob.prev_matches cex5Prec 10 cex5Bench = false ∧
    (IoCostQoSJob.parse cex5Props (some cex5Prec) 0 7).toOption.map
      (fun r => r.dither_dist) = some (some 5) ∧
    (5 : ℚ) ≠ 0 + -((100 : ℚ) / 5) / 2 := by
  refine ⟨?_, ?_, by norm_num⟩
  · norm_num [IoCostQoSJob.prev_matches, cex5Prec, cex5Bench, cex5Qos]
  · norm_num [IoCostQoSJob.parse, cex5Props, cex5Prec, cex5Qos, planParams,
      planWalk, IoCostQoSOvr.sanitize, DFL_VRATE_MAX, DFL_VRATE_INTVS,
      VRATE_INTVS_MIN, Except.toOption, Option.bind]

/-- C5 (amended): when dithering is requested without an explicit dither
distance, planning reuses the previous record's `dither_dist` exactly
when a prior record carrying one is present — regardless of whether its
base model and QoS match the current bench knobs, which parsing never
consults — and otherwise uses the drawn sample `rng` plus the shift
(`-click/2` in the `vrate_min = 0` case, `0` otherwise); both range
endpoints are then offset by the chosen distance before the floor and
the walk. -/
theorem dither_dist_selection (props : QoSSpecProps)
    (prev : Option IoCostQoSRecord) (rng : ℚ) (N fuel : ℕ)
    (hN : props.vrate_intvs = some N) (hNpos : 0 < N)
    (hreq : props.dither = some none)
    (hguard : ¬(props.vrate_min.getD 0 < 0 ∨
      props.vrate_max.getD DFL_VRATE_MAX < 0 ∨
      props.vrate_min.getD 0 ≥ props.vrate_max.getD DFL_VRATE_MAX)) :
    IoCostQoSJob.parse props prev rng fuel =
      .ok ⟨({ off := true } :: props.extraOvrs) ++
        planWalk
          (planParams (props.vrate_min.getD 0)
            (props.vrate_max.getD DFL_VRATE_MAX) N).1
          (max ((planParams (props.vrate_min.getD 0)
              (props.vrate_max.getD DFL_VRATE_MAX) N).2.1 +
            chosenDitherDist props prev rng N) VRATE_INTVS_MIN)
          (props.vrate_max.getD DFL_VRATE_MAX +
            chosenDitherDist props prev rng N) fuel,
        some (chosenDitherDist props prev rng N)⟩ := by
  have hNne : N ≠ 0 := Nat.pos_iff_ne_zero.mp hNpos
  simp only [IoCostQoSJob.parse, hN, hreq, Option.getD_some,
    Option.isSome_some, Option.some_bind, id_eq, chosenDitherDist, if_true]
  rw [if_neg hguard]
  rw [show (if (({ off := true } : IoCostQoSOvr) :: props.extraOvrs).length = 1 ∧
      N = 0 then DFL_VRATE_INTVS else N) = N from if_neg (fun h => hNne h.2)]
  rw [if_pos hNpos]

/-- Witness for `dither_dist_selection`: the concrete spec
`vrate-max=100 vrate-intvs=5 dither` with no previous record draws
`rng + shift` and offsets the endpoints by it. -/
theorem dither_dist_selection_witness :
    (cex5Props.vrate_intvs = some 5 ∧ (0 : ℕ) < 5 ∧
      cex5Props.dither = some none ∧
      ¬(cex5Props.vrate_min.getD 0 < 0 ∨
        cex5Props.vrate_max.getD DFL_VRATE_MAX < 0 ∨
        cex5Props.vrate_min.getD 0 ≥ cex5Props.vrate_max.getD DFL_VRATE_MAX)) ∧
    IoCostQoSJob.parse cex5Props none 0 7 =
      .ok ⟨({ off := true } :: cex5Props.extraOvrs) ++
        planWalk
          (planParams (cex5Props.vrate_min.getD 0)
            (cex5Props.vrate_max.getD DFL_VRATE_MAX) 5).1
          (max ((planParams (cex5Props.vrate_min.getD 0)
              (cex5Props.vrate_max.getD DFL_VRATE_MAX) 5).2.1 +
            chosenDitherDist cex5Props none 0 5) VRATE_INTVS_MIN)
          (cex5Props.vrate_max.getD DFL_VRATE_MAX +
            chosenDitherDist cex5Props none 0 5) 7,
        some (chosenDitherDist cex5Props none 0 5)⟩ :=
  ⟨⟨rfl, by norm_num, rfl, by norm_num [cex5Props, DFL_VRATE_MAX]⟩,
   dither_dist_selection cex5Props none 0 5 7 rfl (by norm_num) rfl
     (by norm_num [cex5Props, DFL_VRATE_MAX])⟩

/-- C4: every QoS record-run produced by `run_one` has `qos = None` when
the override is `off`, and otherwise `qos = Some` of the QoS read back
from the agent's bench file; in the latter case the sweep's sanity check
succeeds exactly when that value equals the target composed from the
base QoS and the override, any mismatch being a hard error. -/
theorem qos_record_invariant (ovr : IoCostQoSOvr)
    (agentQos base : IoCostQoSParams) :
    (ovr.off = true → run_one_qos ovr agentQos = none) ∧
    (ovr.off = false →
      run_one_qos ovr agentQos = some agentQos ∧
      ((validate_run_qos (run_one_qos ovr agentQos)
          (IoCostQoSCfg.calc base ovr)).isOk = true ↔
        some agentQos = IoCostQoSCfg.calc base ovr)) := by
  constructor
  · intro h; simp [run_one_qos, h]
  · intro h
    refine ⟨by simp [run_one_qos, h], ?_⟩
    simp only [run_one_qos, h, Bool.false_eq_true, if_false]
    unfold validate_run_qos
    by_cases he : some agentQos = IoCostQoSCfg.calc base ovr
    · simp [he, Except.isOk, Except.toBool]
    · simp [he, Except.isOk, Except.toBool]

/-- Witness for `qos_record_invariant`: an `off` override yields no
recorded QoS, and a non-`off` override whose read-back equals the
composed target passes validation. -/
theorem qos_record_invariant_witness :
    (({ off := true } : IoCostQoSOvr).off = true ∧
      run_one_qos { off := true } ⟨50, 1000, 50, 1000, 25, 100⟩ = none) ∧
    (({ vmin := some 80, vmax := some 80 } : IoCostQoSOvr).off = false ∧
      run_one_qos { vmin := some 80, vmax := some 80 }
          ⟨50, 1000, 50, 1000, 80, 80⟩ =
        some ⟨50, 1000, 50, 1000, 80, 80⟩ ∧
      ((validate_run_qos
          (run_one_qos { vmin := some 80, vmax := some 80 }
            ⟨50, 1000, 50, 1000, 80, 80⟩)
          (IoCostQoSCfg.calc ⟨50, 1000, 50, 1000, 25, 100⟩
            { vmin := some 80, vmax := some 80 })).isOk = true ↔
        some (⟨50, 1000, 50, 1000, 80, 80⟩ : IoCostQoSParams) =
          IoCostQoSCfg.calc ⟨50, 1000, 50, 1000, 25, 100⟩
            { vmin := some 80, vmax := some 80 })) :=
  ⟨⟨rfl, (qos_record_invariant { off := true } ⟨50, 1000, 50, 1000, 25, 100⟩
      ⟨50, 1000, 50, 1000, 25, 100⟩).1 rfl⟩,
   ⟨rfl, (qos_record_invariant { vmin := some 80, vmax := some 80 }
      ⟨50, 1000, 50, 1000, 80, 80⟩ ⟨50, 1000, 50, 1000, 25, 100⟩).2 rfl⟩⟩

/-- C9: after every `ReportData::fill(stride, nr_slots, src)` call from
a state respecting the ring-capacity invariant, the data ring holds at
most `nr_slots` entries; moreover a call whose `stride`, `nr_slots` or
source-ring cadence differs from the stored values first clears the ring
and the accumulation tip before refilling, so the call behaves exactly
as if starting from the cleared state and no stale entry survives a
parameter change. -/
theorem fill_spec {α T : Type} [Inhabited T] (sel : α → T)
    (acc : T → T → T) (aggr : T → ℕ → T) (s : ReportData T)
    (stride nr_slots : ℕ) (src : ReportRing α) :
    (s.data_ring.length ≤ s.nr_slots →
      (ReportData.fill sel acc aggr s stride nr_slots src).data_ring.length ≤
        nr_slots) ∧
    ((stride ≠ s.stride ∨ nr_slots ≠ s.nr_slots ∨
        s.src_cadence ≠ src.cadence) →
      ReportData.fill sel acc aggr s stride nr_slots src =
        ReportData.fill sel acc aggr
          { s with
              next_src_at := 0
              tip := ⟨0, default, 0⟩
              data_ring := [] }
          stride nr_slots src) := by
  constructor
  · intro hinv
    unfold ReportData.fill
    dsimp only
    by_cases h : stride ≠ s.stride ∨ nr_slots ≠ s.nr_slots ∨
        s.src_cadence ≠ src.cadence
    · rw [if_pos h]
      rcases hlast : src.ring.getLast? with _ | newest
      · simp
      · dsimp only
        rw [List.length_drop]
        omega
    · rw [if_neg h]
      push_neg at h
      rcases hlast : src.ring.getLast? with _ | newest
      · dsimp only
        omega
      · dsimp only
        rw [List.length_drop]
        omega
  · intro h
    unfold ReportData.fill
    dsimp only
    have h' : stride ≠ s.stride ∨ nr_slots ≠ s.nr_slots ∨
        s.src_cadence ≠ src.cadence := h
    rw [if_pos h, if_pos h']

/-- Witness for `fill_spec`: a concrete one-slot state keeps the bound,
and a stride change refills from the cleared state. -/
theorem fill_spec_witness :
    (([some (1 : ℚ)] : List (Option ℚ)).length ≤
      (⟨0, ⟨0, 0, 0⟩, [some 1], 1, 1, 1, 1⟩ : ReportData ℚ).nr_slots ∧
      (ReportData.fill (fun x : ℚ => x) (fun a b => a + b) (fun x _ => x)
        ⟨0, ⟨0, 0, 0⟩, [some 1], 1, 1, 1, 1⟩ 2 3
        ⟨([] : List (ℕ × ℚ)), 1⟩).data_ring.length ≤ 3) ∧
    ((2 : ℕ) ≠ (⟨0, ⟨0, 0, 0⟩, [some 1], 1, 1, 1, 1⟩ : ReportData ℚ).stride ∧
      ReportData.fill (fun x : ℚ => x) (fun a b => a + b) (fun x _ => x)
          ⟨0, ⟨0, 0, 0⟩, [some 1], 1, 1, 1, 1⟩ 2 3 ⟨([] : List (ℕ × ℚ)), 1⟩ =
        ReportData.fill (fun x : ℚ => x) (fun a b => a + b) (fun x _ => x)
          ⟨0, ⟨0, 0, 0⟩, [], 1, 1, 1, 1⟩ 2 3 ⟨([] : List (ℕ × ℚ)), 1⟩) :=
  ⟨⟨by norm_num,
    (fill_spec (fun x : ℚ => x) (fun a b => a + b) (fun x _ => x)
      ⟨0, ⟨0, 0, 0⟩, [some 1], 1, 1, 1, 1⟩ 2 3 ⟨([] : List (ℕ × ℚ)), 1⟩).1
      (by norm_num)⟩,
   ⟨by norm_num,
    (fill_spec (fun x : ℚ => x) (fun a b => a + b) (fun x _ => x)
      ⟨0, ⟨0, 0, 0⟩, [some 1], 1, 1, 1, 1⟩ 2 3 ⟨([] : List (ℕ × ℚ)), 1⟩).2
      (Or.inl (by norm_num))⟩⟩

end Resctl
